import Mathlib

/-!
Verification of the MoviePilot TMDB identity-resolution engine
(`app/modules/themoviedb/tmdbapi.py`) against its natural-language
specification.

The Python code is shallowly embedded:

* TMDB JSON records (Python dicts) become the structure `Rec` below; a key
  that may be absent in the dict becomes an `Option` field (for list-valued
  keys an absent key and an empty list are both falsy in Python and are used
  interchangeably by the code, so they are embedded as plain lists with `[]`
  for "absent").
* Network calls (`self.search.movies`, `self.search.tv_shows`,
  `self.search.multi`, `self.get_info` inside the candidate loops, the detail
  endpoints, the web page fetch) are collaborators: they are passed in as
  function-valued parameters (`Env`, `WebPage`, oracle arguments).
* Python truthiness is made explicit (`""`, `None`, `[]`, `{}`, `0` falsy).
* A Python function that can return `None`, `{}` or a non-empty dict returns
  the three-valued `PyRes`.
* String helpers from `app.utils.string` (`StringUtils.clear`,
  `StringUtils.is_chinese`) and the `zhconv` converter are not part of the
  provided sources; `pyClear`/`isChineseStr` are modelled from the spec and
  the traditional-to-simplified converter is an abstract parameter
  `conv : String → String`.
* All string operations are defined on the character list `String.data`, so
  every definition evaluates by `decide`/`rfl`.
-/

namespace MoviePilot

/-! ## Python string primitives -/

/-- Whitespace characters recognised by Python's `str.strip` / `\s`. -/
def isPySpace (c : Char) : Bool :=
  c.toNat ∈ [32, 9, 10, 13, 11, 12]

/-- Modelled from the spec: `clear(text)` "strips punctuation/symbols and
collapses whitespace" (the punctuation and separator characters that the
normalizer drops before comparison; whitespace is removed entirely, which is
what makes `compareNames` insensitive to whitespace differences). The set of
special characters is given by their code points. -/
def isSpecialChar (c : Char) : Bool :=
  c.toNat ∈ [44, 46, 58, 59, 33, 63, 39, 34, 40, 41, 91, 93, 45, 95, 43, 38,
             35, 126, 47, 92, 124, 183,
             12289, 12290, 65292, 65306, 65307, 65281, 65311,
             8216, 8217, 8220, 8221, 65288, 65289, 12304, 12305, 12300, 12301,
             8212]

/-- Modelled from the spec: `clear` strips punctuation/symbols and whitespace. -/
def pyClear (s : String) : String :=
  ⟨s.data.filter fun c => !(isSpecialChar c || isPySpace c)⟩

/-- Python `str.upper()` (ASCII case fold; the catalog comparison only needs
case-insensitivity, CJK characters are unaffected). -/
def pyUpper (s : String) : String :=
  ⟨s.data.map Char.toUpper⟩

/-- Python `str.strip()`. -/
def pyStrip (s : String) : String :=
  ⟨((s.data.dropWhile isPySpace).reverse.dropWhile isPySpace).reverse⟩

/-- The full normalization used on both sides of a name comparison:
`StringUtils.clear(x).upper()`. -/
def pyNorm (s : String) : String :=
  pyUpper (pyClear s)

/-- Modelled from the spec: `isChinese(text)` is "true iff the string contains
at least one CJK ideograph" — the CJK Unified Ideographs block
U+4E00 (19968) to U+9FFF (40959). -/
def isCJKChar (c : Char) : Bool :=
  19968 ≤ c.toNat && c.toNat ≤ 40959

/-- Modelled from the spec: `StringUtils.is_chinese`. -/
def isChineseStr (s : String) : Bool :=
  s.data.any isCJKChar

/-- Python truthiness of an optional string (`None` and `""` are falsy). -/
def strTruthy : Option String → Bool
  | none => false
  | some s => s ≠ ""

/-- `isChinese` applied to a possibly-absent string (`None` has no CJK char). -/
def isChineseOpt : Option String → Bool
  | none => false
  | some s => isChineseStr s

/-- Python `x or y` for string-valued expressions (falsy left yields right). -/
def pyOrStr (o : Option String) (d : String) : String :=
  match o with
  | none => d
  | some s => if s = "" then d else s

/-- Python `a or b` where both sides are possibly-absent strings. -/
def pyOrOpt (a b : Option String) : Option String :=
  match a with
  | none => b
  | some s => if s = "" then b else some s

/-- Python `s[0:4]` (also used for the year prefix of a date string). -/
def strTake4 (s : String) : String :=
  ⟨s.data.take 4⟩

/-- Python `s.startswith(p)`. -/
def strStartsWith (s p : String) : Bool :=
  p.data.isPrefixOf s.data

/-- Python `s.split("/")[-1]`: the characters after the last `/`. -/
def lastSlashSeg (s : String) : String :=
  ⟨(s.data.reverse.takeWhile (· ≠ '/')).reverse⟩

/-- Python `s.split("-")[0]`: the characters before the first `-`. -/
def beforeDash (s : String) : String :=
  ⟨s.data.takeWhile (· ≠ '-')⟩

/-- Python `a in b` on strings: substring test. -/
def strContainsSub (hay needle : String) : Bool :=
  (hay.data.tails.any fun t => needle.data.isPrefixOf t)

/-- The regular expression `^\d{4}-\d{2}-\d{2}$` from `__season_match`. -/
def isDateStr (s : String) : Bool :=
  match s.data with
  | [y1, y2, y3, y4, s1, m1, m2, s2, d1, d2] =>
      y1.isDigit && y2.isDigit && y3.isDigit && y4.isDigit && s1 = '-' &&
      m1.isDigit && m2.isDigit && s2 = '-' && d1.isDigit && d2.isDigit
  | _ => false

/-- Decimal digits of a natural number (fuel-based so that it is structural
and kernel-evaluable; the fuel `n+1` is always sufficient). -/
def natDigitsAux : Nat → Nat → List Char
  | 0, _ => []
  | fuel + 1, n =>
      if n < 10 then [Char.ofNat (48 + n)]
      else natDigitsAux fuel (n / 10) ++ [Char.ofNat (48 + n % 10)]

/-- Python `str(n)` for a non-negative integer (no leading zeros). -/
def natToStr (n : Nat) : String :=
  ⟨natDigitsAux (n + 1) n⟩

/-! ## Data model: TMDB records -/

/-- A TMDB media type (`app.schemas.types.MediaType`). -/
inductive MediaTypeE where
  | movie
  | tv
  | collection
  | unknown
  deriving DecidableEq

/-- The value stored under the `media_type` key of a record: raw search
results hold the strings `"movie"` / `"tv"` / `"person"`, the engine
overwrites the key with the `MediaType` enum. -/
inductive MediaVal where
  | str (s : String)
  | mt (m : MediaTypeE)
  deriving DecidableEq

/-- An entry of `alternative_titles.titles` / `alternative_titles.results`. -/
structure AltTitle where
  iso_3166_1 : Option String := none
  title : Option String := none
  deriving DecidableEq

/-- An entry of `translations.translations` (with its nested `data` dict
flattened into the two title fields). -/
structure Translation where
  iso_3166_1 : Option String := none
  data_title : Option String := none
  data_name : Option String := none
  deriving DecidableEq

/-- An entry of the per-country list `release_dates.results[].release_dates`. -/
structure RDDate where
  certification : Option String := none
  deriving DecidableEq

/-- An entry of `release_dates.results`. -/
structure RDEntry where
  iso_3166_1 : Option String := none
  release_dates : List RDDate := []
  deriving DecidableEq

/-- An entry of `content_ratings.results`. -/
structure CREntry where
  iso_3166_1 : Option String := none
  rating : Option String := none
  deriving DecidableEq

/-- An entry of a TV detail's `seasons` list. -/
structure SeasonInfo where
  season_number : Option Nat := none
  air_date : Option String := none
  deriving DecidableEq

/-- An episode of an episode group (only `air_date` is consulted). -/
structure GroupEpisode where
  air_date : Option String := none
  deriving DecidableEq

/-- An episode group season (`group_seasons` item): `order` plays the role of
the season number. -/
structure GroupSeason where
  order : Option Nat := none
  episodes : List GroupEpisode := []
  deriving DecidableEq

/-- An entry of a `genres` list. -/
structure Genre where
  id : Option Nat := none
  deriving DecidableEq

/-- A TMDB record (search result or detail), with exactly the keys the
embedded functions touch. `Option`/`[]` defaults model absent keys. -/
structure Rec where
  id : Option Nat := none
  media_type : Option MediaVal := none
  title : Option String := none
  original_title : Option String := none
  name : Option String := none
  original_name : Option String := none
  release_date : Option String := none
  first_air_date : Option String := none
  names : List String := []
  seasons : List SeasonInfo := []
  alt_titles : List AltTitle := []
  alt_results : List AltTitle := []
  translations : List Translation := []
  release_dates_results : List RDEntry := []
  content_ratings_results : List CREntry := []
  genres : List Genre := []
  genre_ids : List (Option Nat) := []
  content_rating : Option String := none
  original_language : Option String := none
  en_title : Option String := none
  hk_title : Option String := none
  tw_title : Option String := none
  sg_title : Option String := none
  deriving DecidableEq

/-- Result of a Python function that may return `None`, `{}`, or a truthy
dict. -/
inductive PyRes where
  | null
  | empty
  | obj (r : Rec)
  deriving DecidableEq

/-- Python truthiness of a `PyRes`. -/
def PyRes.truthy : PyRes → Bool
  | .obj _ => true
  | _ => false

/-- Extract the truthy dict, if any (used to state "returns a non-empty
result" facts). -/
def PyRes.toOpt : PyRes → Option Rec
  | .obj r => some r
  | _ => none

/-- Outcome of one catalog search call: an exception (`TMDbException` etc.),
or a result list (`None` from the API and an empty page both give `[]`,
which the code treats identically). -/
inductive SearchOutcome where
  | exn
  | found (l : List Rec)

/-- The collaborators used by the structured matchers: the three search
endpoints (movie search keyed by the optional year parameter, TV search
likewise, combined search) and `get_info` as called from the candidate loops
(`self.get_info(mtype=..., tmdbid=candidate.get("id"))`). -/
structure Env where
  searchMoviesF : Option String → SearchOutcome
  searchTvsF : Option String → SearchOutcome
  searchMultiF : SearchOutcome
  getInfoF : MediaTypeE → Option Nat → PyRes

/-! ## Stable descending sort (Python `sorted(..., key=..., reverse=True)`)

Python string comparison is lexicographic on code points; `sorted` is stable
and `reverse=True` keeps the original order of equal keys.  A stable
insertion sort with the comparator "key of the earlier element is not below
the key of the later element" reproduces this exactly. -/

/-- Lexicographic `<` on char lists by code point (Python string `<`). -/
def charsLt : List Char → List Char → Bool
  | [], [] => false
  | [], _ :: _ => true
  | _ :: _, [] => false
  | a :: as, b :: bs =>
      if a.toNat < b.toNat then true
      else if b.toNat < a.toNat then false
      else charsLt as bs

/-- `ka ≥ kb` on string keys (the "stays before" test of the stable
descending sort). -/
def keyGe (ka kb : List Char) : Bool :=
  !charsLt ka kb

/-- Stable insertion of `x` into `l`: `x` goes before the first element it
may precede (so equal keys keep their original order). -/
def stableInsert (le : α → α → Bool) (x : α) : List α → List α
  | [] => [x]
  | y :: ys => if le x y then x :: y :: ys else y :: stableInsert le x ys

/-- Stable insertion sort. -/
def stableSort (le : α → α → Bool) (l : List α) : List α :=
  l.foldr (stableInsert le) []

/-- Python `sorted(l, key=key, reverse=True)` for a string-valued key. -/
def sortDescBy (key : α → List Char) (l : List α) : List α :=
  stableSort (fun a b => keyGe (key a) (key b)) l

/-- The sort key `x.get('release_date') or '0000-00-00'` (and the
`first_air_date` analogue): a missing or empty date is keyed `0000-00-00`. -/
def pyOrDate (o : Option String) : String :=
  pyOrStr o "0000-00-00"

/-! ## `TmdbApi.__compare_names` -/

/-- The second argument of `__compare_names`: the Python call sites pass a
string, a list of strings, or `None`. -/
inductive NameArg where
  | pnone
  | pstr (s : String)
  | plist (l : List String)
  deriving DecidableEq

/-- `TmdbApi.__compare_names(file_name, tmdb_names)`: falsy arguments return
`False`; a non-list is wrapped into a one-element list; then the cleared,
stripped, upper-cased catalog names are scanned for exact equality with the
cleared, upper-cased candidate (the `for` loop with early `return True` is
the `List.any`). -/
def compare_names (file_name : String) (tmdb_names : NameArg) : Bool :=
  if file_name = "" then false
  else
    let cand := pyUpper (pyClear file_name)
    let cmp := fun l : List String =>
      l.any fun t => pyUpper (pyStrip (pyClear t)) = cand
    match tmdb_names with
    | .pnone => false
    | .pstr s => if s = "" then false else cmp [s]
    | .plist l => if l = [] then false else cmp l

/-- `__compare_names` applied to a possibly-absent single string
(`movie.get('title')` etc.). -/
def cmpOpt (file_name : String) (o : Option String) : Bool :=
  compare_names file_name (match o with | none => .pnone | some s => .pstr s)

/-- `__compare_names` applied to a `names` list. -/
def cmpList (file_name : String) (l : List String) : Bool :=
  compare_names file_name (.plist l)

/-- The list of catalog names denoted by a `NameArg` once the non-list case
is wrapped (the claim's "a non-list argument is treated as a one-element
list"; `None` carries no name). -/
def NameArg.asList : NameArg → List String
  | .pnone => []
  | .pstr s => [s]
  | .plist l => l

/-- Python truthiness of the raw `tmdb_names` argument. -/
def NameArg.truthy : NameArg → Bool
  | .pnone => false
  | .pstr s => s ≠ ""
  | .plist l => l ≠ []

/-! ### Normalization facts -/

theorem dropWhile_eq_self_of_not_head {p : Char → Bool} :
    ∀ l : List Char, (∀ c ∈ l, p c = false) → l.dropWhile p = l := by
  intro l h
  cases l with
  | nil => rfl
  | cons a as =>
      rw [List.dropWhile_cons]
      simp [h a (by simp)]

theorem pyStrip_pyClear (s : String) : pyStrip (pyClear s) = pyClear s := by
  have hmem : ∀ c ∈ (pyClear s).data, isPySpace c = false := by
    intro c hc
    unfold pyClear at hc
    simp only [List.mem_filter] at hc
    have := hc.2
    simp only [Bool.not_eq_true'] at this
    cases h : isPySpace c
    · rfl
    · rw [h] at this; simp at this
  unfold pyStrip
  rw [dropWhile_eq_self_of_not_head _ hmem]
  rw [dropWhile_eq_self_of_not_head _ (by intro c hc; exact hmem c (by
        simpa using hc))]
  simp

/-- The per-name comparison performed inside the loop equals normalized
equality (`pyNorm`), because `clear` leaves nothing for `strip` to remove. -/
theorem cmp_elem_eq_pyNorm (t cand : String) :
    (pyUpper (pyStrip (pyClear t)) = pyUpper (pyClear cand)) ↔
      (pyNorm t = pyNorm cand) := by
  rw [pyStrip_pyClear]
  rfl

theorem any_congr_mem {α : Type} {l : List α} {p q : α → Bool}
    (h : ∀ x ∈ l, p x = q x) : l.any p = l.any q := by
  induction l with
  | nil => rfl
  | cons a as ih =>
      simp only [List.any_cons, h a (by simp)]
      rw [ih fun x hx => h x (by simp [hx])]

/-- Characterisation of `__compare_names`: truthiness guards on both
arguments, then existence of a catalog name with the same normalization. -/
theorem compare_names_eq (n : String) (arg : NameArg) :
    compare_names n arg =
      (n ≠ "" && arg.truthy && arg.asList.any fun t => pyNorm t = pyNorm n) := by
  have hnorm : ∀ t : String,
      (decide (pyUpper (pyStrip (pyClear t)) = pyUpper (pyClear n))) =
        (decide (pyNorm t = pyNorm n)) := by
    intro t; rw [pyStrip_pyClear]; rfl
  by_cases hn : n = ""
  · subst hn; simp [compare_names]
  · cases arg with
    | pnone => simp [compare_names, hn, NameArg.truthy, NameArg.asList]
    | pstr s =>
        by_cases hs : s = ""
        · subst hs; simp [compare_names, hn, NameArg.truthy, NameArg.asList]
        · simp only [compare_names, if_neg hn, if_neg hs, NameArg.truthy,
            NameArg.asList]
          rw [any_congr_mem fun t _ => hnorm t]
          simp [hn, hs]
    | plist l =>
        by_cases hl : l = []
        · subst hl; simp [compare_names, hn, NameArg.truthy, NameArg.asList]
        · simp only [compare_names, if_neg hn, if_neg hl, NameArg.truthy,
            NameArg.asList]
          rw [any_congr_mem fun t _ => hnorm t]
          simp [hn, hl]

/-- A query whose normalization is non-empty is itself non-empty. -/
theorem ne_empty_of_pyNorm_ne (n : String) (hq : pyNorm n ≠ "") : n ≠ "" := by
  intro h; subst h; exact hq rfl

/-- For a query with non-empty normalization, `__compare_names` against a
single optional catalog name is plain normalized equality. -/
theorem cmpOpt_spec (n : String) (hq : pyNorm n ≠ "") (o : Option String) :
    cmpOpt n o = (match o with
      | some t => decide (pyNorm t = pyNorm n)
      | none => false) := by
  cases o with
  | none =>
      show compare_names n .pnone = false
      rw [compare_names_eq]
      simp [NameArg.truthy]
  | some t =>
      unfold cmpOpt
      rw [compare_names_eq]
      simp only [NameArg.truthy, NameArg.asList, List.any_cons, List.any_nil]
      by_cases ht : t = ""
      · subst ht
        have hr : decide (pyNorm "" = pyNorm n) = false := by
          rw [decide_eq_false_iff_not]
          intro h
          exact hq (show pyNorm n = "" from h.symm)
        simp [hr]
      · simp [ne_empty_of_pyNorm_ne n hq, ht]

/-- For a query with non-empty normalization, `__compare_names` against a
`names` list is an existence of a normalized-equal alias. -/
theorem cmpList_spec (n : String) (hq : pyNorm n ≠ "") (l : List String) :
    cmpList n l = l.any fun t => pyNorm t = pyNorm n := by
  unfold cmpList
  rw [compare_names_eq]
  simp only [NameArg.truthy, NameArg.asList]
  by_cases hl : l = []
  · subst hl; simp
  · simp [ne_empty_of_pyNorm_ne n hq, hl]

/-! ## Claim C4 (`__compare_names` is normalized exact equality) -/

/-- C4, counterexample to the claim as stated: with the empty candidate
`""` and the catalog name `","` both sides normalize to `""` — the claim's
"true iff at least one catalog name, after normalization, is exactly equal
to the equally normalized candidate" demands `True` — but the code's
truthiness guard on `file_name` returns `False`. -/
theorem claim_C4_counterexample :
    pyNorm "," = pyNorm "" ∧ compare_names "" (.pstr ",") = false := by
  constructor
  · decide
  · rfl

/-- C4 (amended): `__compare_names` returns true iff the candidate is
non-empty, the catalog argument is truthy (a `None`, empty-string or
empty-list argument returns false), and at least one catalog name — a
non-list argument being treated as a one-element list — normalizes
(punctuation/whitespace stripped, upper-cased) exactly equal to the
normalized candidate.  The comparison is insensitive to case and whitespace
(`"The Matrix"` matches `"the   matrix"`) and never succeeds on a mere
substring relation. -/
theorem claim_C4 :
    (∀ (n : String) (arg : NameArg),
        compare_names n arg =
          (n ≠ "" && arg.truthy &&
            arg.asList.any fun t => pyNorm t = pyNorm n)) ∧
    compare_names "The Matrix" (.pstr "the   matrix") = true ∧
    compare_names "Matrix" (.pstr "The Matrix") = false := by
  refine ⟨compare_names_eq, by decide, by decide⟩

/-! ## `TmdbApi.__get_content_rating` (claim C5) -/

/-- Python dict assignment `m[k] = v` on a dict embedded as an assoc list in
insertion order: an existing key keeps its position and gets the new value,
a new key is appended. -/
def upsertSR (m : List (String × String)) (k v : String) :
    List (String × String) :=
  if m.any fun p => p.1 = k then
    m.map fun p => if p.1 = k then (k, v) else p
  else m ++ [(k, v)]

/-- Python `m.get(k)` on the embedded dict. -/
def lookupSR (m : List (String × String)) (k : String) : Option String :=
  (m.find? fun p => p.1 = k).map fun p => p.2

/-- One step of building the country-to-rating dict from
`release_dates.results`: the country contributes its first entry's
`certification`; falsy country codes, empty date lists and falsy
certifications are skipped. -/
def rdStep (acc : List (String × String)) (item : RDEntry) :
    List (String × String) :=
  match item.iso_3166_1 with
  | none => acc
  | some iso =>
      if iso = "" then acc
      else
        match item.release_dates with
        | [] => acc
        | d :: _ =>
            match d.certification with
            | none => acc
            | some c => if c = "" then acc else upsertSR acc iso c

/-- The country-to-rating dict built from `release_dates.results`. -/
def buildRatingsRD (l : List RDEntry) : List (String × String) :=
  l.foldl rdStep []

/-- One step of building the country-to-rating dict from
`content_ratings.results`: the country contributes its `rating`; falsy
country codes and ratings are skipped. -/
def crStep (acc : List (String × String)) (item : CREntry) :
    List (String × String) :=
  match item.iso_3166_1 with
  | none => acc
  | some iso =>
      if iso = "" then acc
      else
        match item.rating with
        | none => acc
        | some r => if r = "" then acc else upsertSR acc iso r

/-- The country-to-rating dict built from `content_ratings.results`. -/
def buildRatingsCR (l : List CREntry) : List (String × String) :=
  l.foldl crStep []

/-- The `ratings` dict of `__get_content_rating`: the walrus
`if results := ...` consults `release_dates.results` when that list is
truthy and only otherwise `content_ratings.results`. -/
def ratingsDict (info : Rec) : List (String × String) :=
  if info.release_dates_results ≠ [] then
    buildRatingsRD info.release_dates_results
  else if info.content_ratings_results ≠ [] then
    buildRatingsCR info.content_ratings_results
  else []

/-- `TmdbApi.__get_content_rating`: an empty `ratings` dict yields `None`,
otherwise `ratings.get("CN") or ratings.get("US")`. -/
def get_content_rating (info : Rec) : Option String :=
  if ratingsDict info = [] then none
  else pyOrOpt (lookupSR (ratingsDict info) "CN")
    (lookupSR (ratingsDict info) "US")

/-- C5, spec side, the map: built from `release_dates.results` when that
shape is present (truthy), and only otherwise from
`content_ratings.results`. -/
def ratingsSpec (info : Rec) : List (String × String) :=
  if info.release_dates_results ≠ [] then
    buildRatingsRD info.release_dates_results
  else buildRatingsCR info.content_ratings_results

/-- C5, spec side: the `CN` entry if present, else the `US` entry, else
null. -/
def contentRatingSpec (info : Rec) : Option String :=
  (lookupSR (ratingsSpec info) "CN").orElse fun _ =>
    lookupSR (ratingsSpec info) "US"

theorem mem_upsertSR {m : List (String × String)} {k v : String}
    {q : String × String} (h : q ∈ upsertSR m k v) : q ∈ m ∨ q = (k, v) := by
  unfold upsertSR at h
  by_cases hc : m.any fun p => p.1 = k
  · rw [if_pos hc] at h
    rcases List.mem_map.1 h with ⟨p, hp, he⟩
    by_cases hk : p.1 = k
    · right; rw [if_pos hk] at he; exact he.symm
    · left; rw [if_neg hk] at he; exact he ▸ hp
  · rw [if_neg hc] at h
    rcases List.mem_append.1 h with h1 | h1
    · left; exact h1
    · right; simpa using h1

theorem mem_rdStep {acc : List (String × String)} {item : RDEntry}
    {q : String × String} (h : q ∈ rdStep acc item) : q ∈ acc ∨ q.2 ≠ "" := by
  unfold rdStep at h
  split at h
  · exact Or.inl h
  · split at h
    · exact Or.inl h
    · split at h
      · exact Or.inl h
      · split at h
        · exact Or.inl h
        · split at h
          · exact Or.inl h
          · rename_i hce
            rcases mem_upsertSR h with h1 | h1
            · exact Or.inl h1
            · right; rw [h1]; exact hce

theorem mem_crStep {acc : List (String × String)} {item : CREntry}
    {q : String × String} (h : q ∈ crStep acc item) : q ∈ acc ∨ q.2 ≠ "" := by
  unfold crStep at h
  split at h
  · exact Or.inl h
  · split at h
    · exact Or.inl h
    · split at h
      · exact Or.inl h
      · split at h
        · exact Or.inl h
        · rename_i hre
          rcases mem_upsertSR h with h1 | h1
          · exact Or.inl h1
          · right; rw [h1]; exact hre

theorem foldl_vals_ne {β : Type}
    {step : List (String × String) → β → List (String × String)}
    (hstep : ∀ acc item (q : String × String),
      q ∈ step acc item → q ∈ acc ∨ q.2 ≠ "") :
    ∀ (l : List β) (acc : List (String × String)),
      (∀ p ∈ acc, p.2 ≠ "") → ∀ p ∈ l.foldl step acc, p.2 ≠ "" := by
  intro l
  induction l with
  | nil => intro acc hacc p hp; exact hacc p hp
  | cons item rest ih =>
      intro acc hacc p hp
      simp only [List.foldl_cons] at hp
      refine ih _ ?_ p hp
      intro q hq
      rcases hstep acc item q hq with h1 | h1
      · exact hacc q h1
      · exact h1

theorem buildRatingsRD_vals_ne (l : List RDEntry) :
    ∀ p ∈ buildRatingsRD l, p.2 ≠ "" :=
  foldl_vals_ne (fun _ _ _ h => mem_rdStep h) l [] (by intro p hp; simp at hp)

theorem buildRatingsCR_vals_ne (l : List CREntry) :
    ∀ p ∈ buildRatingsCR l, p.2 ≠ "" :=
  foldl_vals_ne (fun _ _ _ h => mem_crStep h) l [] (by intro p hp; simp at hp)

theorem lookupSR_val_ne {m : List (String × String)} {k v : String}
    (hm : ∀ p ∈ m, p.2 ≠ "") (h : lookupSR m k = some v) : v ≠ "" := by
  unfold lookupSR at h
  cases hf : m.find? fun p => p.1 = k with
  | none => rw [hf] at h; simp at h
  | some p =>
      rw [hf] at h
      simp only [Option.map_some', Option.some.injEq] at h
      have := hm p (List.mem_of_find?_eq_some hf)
      rw [← h]
      exact this

theorem pyOrOpt_eq_orElse {a b : Option String} (ha : ∀ v, a = some v → v ≠ "") :
    pyOrOpt a b = a.orElse fun _ => b := by
  cases a with
  | none => rfl
  | some s =>
      have := ha s rfl
      simp [pyOrOpt, this, Option.orElse]

theorem ratingsDict_eq_spec (info : Rec) : ratingsDict info = ratingsSpec info := by
  unfold ratingsDict ratingsSpec
  by_cases hrd : info.release_dates_results = []
  · simp only [hrd, ne_eq, not_true_eq_false, if_false]
    by_cases hcr : info.content_ratings_results = []
    · simp [hcr, buildRatingsCR]
    · simp [hcr]
  · simp [hrd]

theorem ratingsDict_vals_ne (info : Rec) : ∀ p ∈ ratingsDict info, p.2 ≠ "" := by
  unfold ratingsDict
  by_cases hrd : info.release_dates_results = []
  · simp only [hrd, ne_eq, not_true_eq_false, if_false]
    by_cases hcr : info.content_ratings_results = []
    · simp [hcr]
    · simp only [hcr, ne_eq, not_false_eq_true, if_true]
      exact buildRatingsCR_vals_ne _
  · simp only [hrd, ne_eq, not_false_eq_true, if_true]
    exact buildRatingsRD_vals_ne _

/-- C5: `content_rating` is derived from `release_dates.results` (each
country's first entry's certification) when that shape is present and only
otherwise from `content_ratings.results`; the result is the `CN` entry if
present, else the `US` entry, else null.  In particular the
`content_ratings` shape is never consulted when `release_dates.results` is
non-empty (second conjunct), and `CN` wins over `US` when both countries
are present (closed third conjunct). -/
theorem claim_C5 :
    (∀ info : Rec, get_content_rating info = contentRatingSpec info) ∧
    (∀ (info : Rec) (crs : List CREntry),
        info.release_dates_results ≠ [] →
        get_content_rating { info with content_ratings_results := crs } =
          get_content_rating info) ∧
    get_content_rating
      { release_dates_results :=
          [{ iso_3166_1 := some "US",
             release_dates := [{ certification := some "R" }] },
           { iso_3166_1 := some "CN",
             release_dates := [{ certification := some "18+" }] }] } =
      some "18+" := by
  refine ⟨?_, ?_, by decide⟩
  · intro info
    unfold get_content_rating contentRatingSpec
    rw [ratingsDict_eq_spec]
    by_cases hb : ratingsSpec info = []
    · simp [hb, lookupSR, Option.orElse]
    · rw [if_neg hb]
      refine pyOrOpt_eq_orElse fun v hv => ?_
      rw [← ratingsDict_eq_spec] at hv
      exact lookupSR_val_ne (ratingsDict_vals_ne info) hv
  · intro info crs hrd
    unfold get_content_rating ratingsDict
    simp only [ne_eq, hrd, not_false_eq_true, if_true]

/-- C5, witness: the second conjunct applied at a movie-shaped record that
carries both rating shapes — the TV shape is ignored. -/
theorem claim_C5_witness :
    get_content_rating
      { release_dates_results :=
          [{ iso_3166_1 := some "US",
             release_dates := [{ certification := some "PG-13" }] }],
        content_ratings_results :=
          [{ iso_3166_1 := some "US", rating := some "TV-MA" }] } =
    get_content_rating
      { release_dates_results :=
          [{ iso_3166_1 := some "US",
             release_dates := [{ certification := some "PG-13" }] }],
        content_ratings_results := [] } :=
  claim_C5.2.1
    ({ release_dates_results :=
          [{ iso_3166_1 := some "US",
             release_dates := [{ certification := some "PG-13" }] }],
       content_ratings_results := [] } : Rec)
    [{ iso_3166_1 := some "US", rating := some "TV-MA" }]
    (by decide)

/-! ## `TmdbApi.__update_tmdbinfo_cn_title` (claim C6) -/

/-- The primary display title: `title` for a record typed movie, `name`
otherwise. -/
def primaryTitle (info : Rec) : Option String :=
  if info.media_type = some (.mt .movie) then info.title else info.name

/-- Overwrite the primary display title in place. -/
def setPrimaryTitle (info : Rec) (v : Option String) : Rec :=
  if info.media_type = some (.mt .movie) then { info with title := v }
  else { info with name := v }

/-- The alternative-title list consulted: `alternative_titles.titles` for a
movie, `alternative_titles.results` otherwise. -/
def altTitlesOf (info : Rec) : List AltTitle :=
  if info.media_type = some (.mt .movie) then info.alt_titles
  else info.alt_results

/-- The qualification test of `__get_tmdb_chinese_title`'s loop body: a
`CN`-region entry whose title is truthy, contains CJK, and is unchanged by
the traditional-to-simplified conversion `conv`. -/
def cnAltPred (conv : String → String) (a : AltTitle) : Bool :=
  a.iso_3166_1 = some "CN" &&
    (match a.title with
     | some t => t ≠ "" && isChineseStr t && conv t = t
     | none => false)

/-- `__get_tmdb_chinese_title`: the first qualifying `CN` alternative title
(the loop keeps scanning past `CN` entries whose title does not qualify),
falling back to the record's own primary title. -/
def get_tmdb_chinese_title (conv : String → String) (info : Rec) :
    Option String :=
  match (altTitlesOf info).find? (cnAltPred conv) with
  | some a => a.title
  | none =>
      if info.media_type = some (.mt .movie) then info.title else info.name

/-- `TmdbApi.__update_tmdbinfo_cn_title`: when the primary title is not CJK,
replace it by the `CN` alias when one qualifies and differs from the
original, else by `sg_title` when that is truthy, differs and is CJK. -/
def update_tmdbinfo_cn_title (conv : String → String) (info : Rec) : Rec :=
  let org := primaryTitle info
  if isChineseOpt org then info
  else
    let cn := get_tmdb_chinese_title conv info
    if strTruthy cn && cn ≠ org then setPrimaryTitle info cn
    else
      let sg := info.sg_title
      if strTruthy sg && sg ≠ org && isChineseOpt sg then
        setPrimaryTitle info sg
      else info

/-- C6, spec side, the `sg_title` fallback: replace the primary title with
`sg_title` when it is CJK and differs from the original. -/
def cnTitleSgStep (info : Rec) (org : Option String) : Rec :=
  if isChineseOpt info.sg_title && info.sg_title ≠ org then
    setPrimaryTitle info info.sg_title
  else info

/-- C6, spec side: the claim's wording — a CJK primary title is left alone;
otherwise the first `CN`-region alternative title that is CJK and unchanged
by a traditional-to-simplified round trip replaces the primary title
provided it differs from the original; failing that the `sg_title` fallback
applies; in every other case the record is unchanged. -/
def cnTitleSpec (conv : String → String) (info : Rec) : Rec :=
  let org := primaryTitle info
  if isChineseOpt org then info
  else
    match (altTitlesOf info).find? fun a =>
        a.iso_3166_1 = some "CN" &&
          (match a.title with
           | some t => isChineseStr t && conv t = t
           | none => false) with
    | some a =>
        if a.title ≠ org then setPrimaryTitle info a.title
        else cnTitleSgStep info org
    | none => cnTitleSgStep info org

theorem cnAltPred_eq (conv : String → String) (a : AltTitle) :
    cnAltPred conv a =
      (a.iso_3166_1 = some "CN" &&
        (match a.title with
         | some t => isChineseStr t && conv t = t
         | none => false)) := by
  unfold cnAltPred
  cases a.title with
  | none => rfl
  | some t =>
      by_cases ht : t = ""
      · subst ht; simp [isChineseStr]
      · simp [ht]

theorem find?_congr_mem {α : Type} {l : List α} {p q : α → Bool}
    (h : ∀ x ∈ l, p x = q x) : l.find? p = l.find? q := by
  induction l with
  | nil => rfl
  | cons a as ih =>
      rw [List.find?_cons, List.find?_cons, h a (by simp)]
      cases q a
      · exact ih fun x hx => h x (by simp [hx])
      · rfl

/-- The code's `sg_title` guard (`sg and sg != org and is_chinese(sg)`)
agrees with the claim's ("CJK and differs"): CJK-ness implies truthiness. -/
theorem sgCond_eq (sg org : Option String) :
    (strTruthy sg && decide (sg ≠ org) && isChineseOpt sg) =
      (isChineseOpt sg && decide (sg ≠ org)) := by
  cases sg with
  | none => simp [strTruthy, isChineseOpt]
  | some s =>
      by_cases hs : s = ""
      · subst hs; simp [strTruthy, isChineseOpt, isChineseStr]
      · simp only [strTruthy, isChineseOpt]
        simp [hs, Bool.and_comm]

theorem cnAltPred_parts {conv : String → String} {a : AltTitle}
    (h : cnAltPred conv a = true) :
    ∃ t, a.title = some t ∧ t ≠ "" ∧ isChineseStr t = true ∧ conv t = t := by
  unfold cnAltPred at h
  cases ht : a.title with
  | none => rw [ht] at h; simp at h
  | some t =>
      rw [ht] at h
      simp only [Bool.and_eq_true, decide_eq_true_eq] at h
      exact ⟨t, rfl, (by simpa using h.2.1.1), h.2.1.2, h.2.2⟩

theorem sg_branch_eq (info : Rec) (org : Option String) :
    (if strTruthy info.sg_title && decide (info.sg_title ≠ org) &&
          isChineseOpt info.sg_title then
        setPrimaryTitle info info.sg_title
      else info) = cnTitleSgStep info org := by
  unfold cnTitleSgStep
  rw [sgCond_eq]

/-- C6: `__update_tmdbinfo_cn_title` implements exactly the claim's rewrite
policy (first conjunct), and on the spec's own example a non-CJK movie title
with a simplified `CN` alias is replaced by that alias (second conjunct),
while a record whose primary title is already CJK is untouched (third
conjunct) — including a title from the first rows of the CJK Unified
Ideographs block (`三体`, U+4E09/U+4F53), which stays untouched even with a
replacement candidate present (fourth conjunct). -/
theorem claim_C6 :
    (∀ (conv : String → String) (info : Rec),
        update_tmdbinfo_cn_title conv info = cnTitleSpec conv info) ∧
    (update_tmdbinfo_cn_title (fun s => s)
        { media_type := some (.mt .movie), title := some "Puss in Boots",
          alt_titles :=
            [{ iso_3166_1 := some "CN", title := some "穿靴子的猫" }] } =
      { media_type := some (.mt .movie), title := some "穿靴子的猫",
        alt_titles :=
          [{ iso_3166_1 := some "CN", title := some "穿靴子的猫" }] }) ∧
    (update_tmdbinfo_cn_title (fun s => s)
        { media_type := some (.mt .movie), title := some "穿靴子的猫" } =
      { media_type := some (.mt .movie), title := some "穿靴子的猫" }) ∧
    (update_tmdbinfo_cn_title (fun s => s)
        { media_type := some (.mt .movie), title := some "三体",
          sg_title := some "３体" } =
      { media_type := some (.mt .movie), title := some "三体",
        sg_title := some "３体" }) := by
  refine ⟨?_, by decide, by decide, by decide⟩
  intro conv info
  unfold update_tmdbinfo_cn_title cnTitleSpec
  by_cases horg : isChineseOpt (primaryTitle info)
  · simp [horg]
  · simp only [horg, Bool.false_eq_true, if_false]
    have hfind :
        ((altTitlesOf info).find? fun a =>
          a.iso_3166_1 = some "CN" &&
            (match a.title with
             | some t => isChineseStr t && conv t = t
             | none => false)) =
        (altTitlesOf info).find? (cnAltPred conv) :=
      find?_congr_mem fun a _ => (cnAltPred_eq conv a).symm
    rw [hfind]
    cases hf : (altTitlesOf info).find? (cnAltPred conv) with
    | some a =>
        obtain ⟨t, hat, htne, hchin, hconv⟩ := cnAltPred_parts (List.find?_some hf)
        simp only [get_tmdb_chinese_title, hf, hat]
        by_cases hd : (some t : Option String) = primaryTitle info
        · have hcond :
              (strTruthy (some t) &&
                decide ((some t : Option String) ≠ primaryTitle info)) =
                false := by
            simp [hd]
          rw [hcond]
          simp only [Bool.false_eq_true, if_false]
          rw [if_neg (show ¬ ((some t : Option String) ≠ primaryTitle info)
            from by simp [hd])]
          exact sg_branch_eq info (primaryTitle info)
        · have hcond :
              (strTruthy (some t) &&
                decide ((some t : Option String) ≠ primaryTitle info)) =
                true := by
            simp [strTruthy, htne, hd]
          rw [hcond]
          simp only [if_true]
          rw [if_pos (show (some t : Option String) ≠ primaryTitle info
            from hd)]
    | none =>
        simp only [get_tmdb_chinese_title, hf]
        have hcn :
            (if info.media_type = some (.mt .movie) then info.title
              else info.name) = primaryTitle info := rfl
        rw [hcn]
        have hcond :
            (strTruthy (primaryTitle info) &&
              decide (primaryTitle info ≠ primaryTitle info)) = false := by
          simp
        rw [hcond]
        simp only [Bool.false_eq_true, if_false]
        exact sg_branch_eq info (primaryTitle info)

/-! ## `TmdbApi.get_info` and its enrichment (claim C8) -/

/-- The dedup-append loop of `__get_names`: `if title and title not in
ret_names: ret_names.append(title)`. -/
def collectNames (l : List (Option String)) : List String :=
  l.foldl
    (fun acc o =>
      match o with
      | some t => if t ≠ "" && !acc.contains t then acc ++ [t] else acc
      | none => acc)
    []

/-- `TmdbApi.__get_names`: alternative titles (movie shape `.titles`, TV
shape `.results`, both reading the `title` key) followed by translated
titles (`data.title` for movies, `data.name` for TV), first occurrence
wins. -/
def get_names (info : Rec) : List String :=
  if info.media_type = some (.mt .movie) then
    collectNames (info.alt_titles.map (·.title) ++
      info.translations.map (·.data_title))
  else
    collectNames (info.alt_results.map (·.title) ++
      info.translations.map (·.data_name))

/-- `__get_genre_ids`: the flat list of `genres[].id`. -/
def get_genre_ids (genres : List Genre) : List (Option Nat) :=
  genres.map (·.id)

/-- `__get_tmdb_lang_title`: the first translation for the region, reading
`data.title` for movies and `data.name` otherwise (a found entry may still
carry no title, which yields `None` exactly like no entry at all). -/
def langTitle (info : Rec) (lang : String) : Option String :=
  match info.translations.find? fun tr => tr.iso_3166_1 = some lang with
  | some tr =>
      if info.media_type = some (.mt .movie) then tr.data_title
      else tr.data_name
  | none => none

/-- `TmdbApi.__update_tmdbinfo_extra_title`. -/
def update_tmdbinfo_extra_title (info : Rec) : Rec :=
  let org :=
    if info.media_type = some (.mt .movie) then info.original_title
    else info.original_name
  let en :=
    if info.original_language = some "en" then org
    else pyOrOpt (langTitle info "US") org
  { info with
      en_title := en,
      hk_title := langTitle info "HK",
      tw_title := langTitle info "TW",
      sg_title := pyOrOpt (langTitle info "SG") org }

/-- The in-place enrichment performed by `get_info` on a truthy record:
`genre_ids`, `names`, `content_rating`, the extra-locale titles, and (in
Chinese locale) the rewritten primary title. -/
def enrichInfo (locale : String) (conv : String → String) (r : Rec) : Rec :=
  let r1 := { r with genre_ids := get_genre_ids r.genres }
  let r2 := { r1 with names := get_names r1 }
  let r3 := { r2 with content_rating := get_content_rating r2 }
  let r4 := update_tmdbinfo_extra_title r3
  if locale = "zh" then update_tmdbinfo_cn_title conv r4 else r4

/-- `tmdb_info['media_type'] = ...` guarded by truthiness. -/
def setMediaTypeIfTruthy (p : PyRes) (m : MediaTypeE) : PyRes :=
  match p with
  | .obj r => .obj { r with media_type := some (.mt m) }
  | x => x

/-- `TmdbApi.get_info`, with the two detail endpoints
(`__get_movie_detail` / `__get_tv_detail`, network collaborators) passed as
their results for the requested id.  The second component records whether
the "cannot tell movie from TV" ambiguity warning was logged. -/
def get_info (locale : String) (conv : String → String)
    (movieDetail tvDetail : PyRes) (mtype : MediaTypeE) : PyRes × Bool :=
  let raw : PyRes × Bool :=
    match mtype with
    | .movie => (setMediaTypeIfTruthy movieDetail .movie, false)
    | .tv => (setMediaTypeIfTruthy tvDetail .tv, false)
    | _ =>
        if tvDetail.truthy && movieDetail.truthy then (.null, true)
        else if tvDetail.truthy then (setMediaTypeIfTruthy tvDetail .tv, false)
        else if movieDetail.truthy then
          (setMediaTypeIfTruthy movieDetail .movie, false)
        else (.null, false)
  match raw with
  | (.obj r, warned) => (.obj (enrichInfo locale conv r), warned)
  | x => x

/-- C8, spec side: with an unknown media type both detail lookups are made;
two non-empty answers give an empty result plus the ambiguity warning, one
non-empty answer is returned with `media_type` set to the corresponding
type (and the standard derived attributes filled in), no answer gives an
empty result. -/
def getInfoUnknownSpec (locale : String) (conv : String → String)
    (movieDetail tvDetail : PyRes) : PyRes × Bool :=
  if movieDetail.truthy && tvDetail.truthy then (.null, true)
  else if movieDetail.truthy then
    (match movieDetail with
     | .obj r =>
         .obj (enrichInfo locale conv { r with media_type := some (.mt .movie) })
     | x => x, false)
  else if tvDetail.truthy then
    (match tvDetail with
     | .obj r =>
         .obj (enrichInfo locale conv { r with media_type := some (.mt .tv) })
     | x => x, false)
  else (.null, false)

/-- C8: `get_info` with an unknown media type looks up both detail
endpoints; both non-empty yields an empty result with the ambiguity warning
(never a guess), exactly one non-empty yields that record with `media_type`
set, neither yields an empty result. -/
theorem claim_C8 (locale : String) (conv : String → String)
    (movieDetail tvDetail : PyRes) :
    get_info locale conv movieDetail tvDetail .unknown =
      getInfoUnknownSpec locale conv movieDetail tvDetail := by
  cases movieDetail <;> cases tvDetail <;> rfl

/-! ## `TmdbApi.search_movies` (claim C9) -/

/-- The filter loop of `search_movies`: `if title in movie.get("title")`.
When a search-result record lacks the `title` key, `movie.get("title")` is
`None` and the Python membership test raises `TypeError`; the embedding
makes the raised exception explicit in the `Except` error channel. -/
def searchMoviesLoop (title : String) : List Rec → Except String (List Rec)
  | [] => .ok []
  | m :: rest =>
      match m.title with
      | none => .error "TypeError: argument of type NoneType is not iterable"
      | some t =>
          if strContainsSub t title then
            (searchMoviesLoop title rest).map
              (fun l => { m with media_type := some (.mt .movie) } :: l)
          else searchMoviesLoop title rest

/-- `TmdbApi.search_movies(title, year)`: an empty title short-circuits to
`[]`; otherwise the search endpoint is queried (its result list for this
title/year is the oracle argument `searchRes`) and filtered by the
substring test.  The `year` parameter only selects the search call and is
kept for signature fidelity. -/
def search_movies (title : String) (_year : String) (searchRes : List Rec) :
    Except String (List Rec) :=
  if title = "" then .ok []
  else searchMoviesLoop title searchRes

/-- C9: the spec demands that every search operation be total over records
with absent keys, "including search_movies applied to a search-result
record that lacks the title key" — but on exactly that input the code
raises `TypeError` (`title in movie.get("title")` with `movie.get("title")
= None`).  The theorem evaluates the embedded code at the failing input. -/
theorem claim_C9 :
    search_movies "X" "2020" [{}] =
      .error "TypeError: argument of type NoneType is not iterable" := rfl

/-! ## Generic candidate scan (the `for candidate in sorted(...)` loops) -/

/-- The candidate loop shared by the matchers: each iteration either accepts
(returning a record — possibly the detail fetched for the alias lookup) or
falls through to the next candidate; an exhausted loop returns `{}`. -/
def scanAccept (accept : Rec → Option Rec) : List Rec → PyRes
  | [] => .empty
  | m :: rest =>
      match accept m with
      | some r => .obj r
      | none => scanAccept accept rest

theorem scanAccept_eq (accept : Rec → Option Rec) (l : List Rec) :
    scanAccept accept l =
      (match l.findSome? accept with
       | some r => PyRes.obj r
       | none => PyRes.empty) := by
  induction l with
  | nil => rfl
  | cons m rest ih =>
      rw [List.findSome?_cons]
      unfold scanAccept
      cases accept m with
      | some r => rfl
      | none => simpa using ih

theorem scanAccept_obj_iff (accept : Rec → Option Rec) (l : List Rec)
    (r : Rec) :
    scanAccept accept l = .obj r ↔ l.findSome? accept = some r := by
  rw [scanAccept_eq]
  cases l.findSome? accept <;> simp

/-! ## `TmdbApi.__get_tv_seasons` and `__season_match` (claims C2, C10) -/

/-- Python dict assignment on the season dict (`ret_seasons[k] = v`). -/
def upsertSeason (m : List (Nat × SeasonInfo)) (k : Nat) (v : SeasonInfo) :
    List (Nat × SeasonInfo) :=
  if m.any fun p => p.1 = k then
    m.map fun p => if p.1 = k then (k, v) else p
  else m ++ [(k, v)]

/-- One step of building the season dict.  With `keepZero = false` this is
the code's guard `if not season_info.get("season_number"): continue`, which
drops entries with a missing season number and — 0 being falsy — the
specials season alike.  With `keepZero = true` only entries lacking a
season number are dropped (the claim's reading). -/
def seasonStep (keepZero : Bool) (acc : List (Nat × SeasonInfo))
    (si : SeasonInfo) : List (Nat × SeasonInfo) :=
  match si.season_number with
  | none => acc
  | some k => if k = 0 && !keepZero then acc else upsertSeason acc k si

/-- `TmdbApi.__get_tv_seasons`: the season dict keyed by `season_number`. -/
def get_tv_seasons (tv : Rec) : List (Nat × SeasonInfo) :=
  tv.seasons.foldl (seasonStep false) []

/-- C2, spec side: the season map "keyed by season_number, skipping entries
with no season number". -/
def seasonMapSpec (l : List SeasonInfo) : List (Nat × SeasonInfo) :=
  l.foldl (seasonStep true) []

/-- The `else` branch of `__season_match`: scan the candidate's own season
dict for the requested season number with a truthy air date whose 4-digit
prefix is the season year (the loop with early `return True` is the
`List.any`). -/
def seasonMatchOwn (tv : Rec) (sy : String) (sn : Nat) : Bool :=
  (get_tv_seasons tv).any fun p =>
    strTruthy p.2.air_date && strTake4 (p.2.air_date.getD "") = sy &&
      p.1 = sn

/-- The `group_seasons` branch of `__season_match`: scan the groups for the
one whose `order` is the season number; an order-matching group with
episodes whose first episode has no `air_date` makes `re.match` raise
`TypeError`, which the surrounding `except` turns into `False` for the
whole match (the scan aborts); a first date failing the date regex or the
year test lets the loop continue. -/
def seasonMatchGroups (sy : String) (sn : Nat) : List GroupSeason → Bool
  | [] => false
  | g :: rest =>
      if g.order ≠ some sn then seasonMatchGroups sy sn rest
      else
        match g.episodes with
        | [] => seasonMatchGroups sy sn rest
        | e :: _ =>
            match e.air_date with
            | none => false
            | some d =>
                if isDateStr d && beforeDash d = sy then true
                else seasonMatchGroups sy sn rest

/-- `__season_match(tv_info, season_year)` with `group_seasons` and
`season_number` from the enclosing scope: groups are used when supplied
(truthy), else the candidate's own seasons. -/
def season_match (group_seasons : List GroupSeason) (sn : Nat) (tv : Rec)
    (sy : String) : Bool :=
  if group_seasons ≠ [] then seasonMatchGroups sy sn group_seasons
  else seasonMatchOwn tv sy sn

/-- The group-season predicate of the claim. -/
def groupPred (sy : String) (sn : Nat) (g : GroupSeason) : Bool :=
  g.order = some sn &&
    (match g.episodes with
     | [] => false
     | e :: _ =>
         match e.air_date with
         | none => false
         | some d => isDateStr d && strTake4 d = sy)

/-- C2, spec side, the season requirement: with explicit episode-group
seasons, the group whose `order` equals the season number must have a first
episode whose (well-formed) air date has year `sy`; otherwise the map built
from the candidate's own `seasons` must contain an entry whose
`season_number` equals the requested season and whose air date year is
`sy`. -/
def seasonCondSpec (group_seasons : List GroupSeason) (sn : Nat) (tv : Rec)
    (sy : String) : Bool :=
  if group_seasons ≠ [] then group_seasons.any (groupPred sy sn)
  else
    (seasonMapSpec tv.seasons).any fun p =>
      p.1 = sn &&
        (match p.2.air_date with
         | some d => strTake4 d = sy
         | none => false)

/-! ### Season lemmas -/

theorem digit_ne_dash {c : Char} (h : c.isDigit = true) : c ≠ '-' := by
  intro he
  subst he
  simp [Char.isDigit] at h

/-- On a well-formed `\d{4}-\d{2}-\d{2}` date, `split("-")[0]` and `[0:4]`
agree. -/
theorem beforeDash_eq_take4 {d : String} (h : isDateStr d = true) :
    beforeDash d = strTake4 d := by
  unfold isDateStr at h
  unfold beforeDash strTake4
  split at h
  · rename_i y1 y2 y3 y4 s1 m1 m2 s2 d1 d2 heq
    rw [heq]
    simp only [Bool.and_eq_true, decide_eq_true_eq] at h
    obtain ⟨⟨⟨⟨⟨⟨⟨⟨⟨h1, h2⟩, h3⟩, h4⟩, h5⟩, h6⟩, h7⟩, h8⟩, h9⟩, h10⟩
      := h
    subst h5
    simp [List.takeWhile_cons, digit_ne_dash h1, digit_ne_dash h2,
      digit_ne_dash h3, digit_ne_dash h4]
  · simp at h

theorem any_upsertSeason_self {pred : Nat × SeasonInfo → Bool} {sn : Nat}
    (hp0 : ∀ q, q.1 ≠ sn → pred q = false) (m : List (Nat × SeasonInfo))
    (v : SeasonInfo) : (upsertSeason m sn v).any pred = pred (sn, v) := by
  unfold upsertSeason
  by_cases hc : (m.any fun p => p.1 = sn) = true
  · rw [if_pos hc, List.any_map]
    cases hpv : pred (sn, v) with
    | true =>
        rw [List.any_eq_true] at hc ⊢
        obtain ⟨p, hp, hps⟩ := hc
        refine ⟨p, hp, ?_⟩
        simp only [Function.comp, decide_eq_true_eq] at hps ⊢
        rw [if_pos hps]
        exact hpv
    | false =>
        rw [List.any_eq_false]
        intro p _
        simp only [Function.comp]
        by_cases hpk : p.1 = sn
        · rw [if_pos hpk, hpv]; simp
        · rw [if_neg hpk, hp0 p hpk]; simp
  · rw [if_neg hc, List.any_append]
    have hm : m.any pred = false := by
      rw [List.any_eq_false]
      intro p hp
      by_cases hpk : p.1 = sn
      · exfalso
        exact hc (List.any_eq_true.2 ⟨p, hp, by simpa using hpk⟩)
      · rw [hp0 p hpk]; simp
    rw [hm]
    simp

theorem any_upsertSeason_other {pred : Nat × SeasonInfo → Bool} {sn : Nat}
    (hp0 : ∀ q, q.1 ≠ sn → pred q = false) {k : Nat} (hk : k ≠ sn)
    (m : List (Nat × SeasonInfo)) (v : SeasonInfo) :
    (upsertSeason m k v).any pred = m.any pred := by
  unfold upsertSeason
  by_cases hc : (m.any fun p => p.1 = k) = true
  · rw [if_pos hc, List.any_map]
    apply any_congr_mem
    intro p _
    simp only [Function.comp]
    by_cases hpk : p.1 = k
    · rw [if_pos hpk, hp0 (k, v) hk, hp0 p (by rw [hpk]; exact hk)]
    · rw [if_neg hpk]
  · rw [if_neg hc, List.any_append]
    simp [hp0 (k, v) hk]

theorem seasonFold_any_eq {pred : Nat × SeasonInfo → Bool} {sn : Nat}
    (hp0 : ∀ q, q.1 ≠ sn → pred q = false) (hsn : sn ≠ 0) :
    ∀ (l : List SeasonInfo) (m m' : List (Nat × SeasonInfo)),
      m.any pred = m'.any pred →
      (l.foldl (seasonStep false) m).any pred =
        (l.foldl (seasonStep true) m').any pred := by
  intro l
  induction l with
  | nil => intro m m' h; exact h
  | cons si rest ih =>
      intro m m' h
      simp only [List.foldl_cons]
      apply ih
      cases hs : si.season_number with
      | none => simp only [seasonStep, hs]; exact h
      | some k =>
          simp only [seasonStep, hs]
          by_cases hk0 : k = 0
          · subst hk0
            simp only [if_pos (by simp : (0 = 0 && !false) = true),
              Bool.not_true, Bool.and_false, Bool.false_eq_true, if_false]
            rw [any_upsertSeason_other hp0 (fun he => hsn he.symm) m' si]
            exact h
          · rw [if_neg (show ¬((decide (k = 0) && !false) = true) from by
                simp [hk0]),
              if_neg (show ¬((decide (k = 0) && !true) = true) from by simp)]
            by_cases hks : k = sn
            · subst hks
              rw [any_upsertSeason_self hp0 m si,
                any_upsertSeason_self hp0 m' si]
            · rw [any_upsertSeason_other hp0 hks m si,
                any_upsertSeason_other hp0 hks m' si]
              exact h

/-- The code's own-seasons test and the claim's map condition agree
pointwise on entries (for a non-empty season year). -/
theorem seasonOwnPred_eq {sy : String} (hsy : sy ≠ "") (sn : Nat)
    (q : Nat × SeasonInfo) :
    (strTruthy q.2.air_date &&
        strTake4 (q.2.air_date.getD "") = sy && q.1 = sn) =
      (q.1 = sn &&
        (match q.2.air_date with
         | some d => strTake4 d = sy
         | none => false)) := by
  cases hair : q.2.air_date with
  | none => simp [strTruthy]
  | some d =>
      by_cases hd : d = ""
      · subst hd
        have : strTake4 "" = "" := rfl
        simp [strTruthy, this, Ne.symm hsy]
      · simp only [strTruthy, Option.getD_some]
        by_cases h1 : strTake4 d = sy <;> by_cases h2 : q.1 = sn <;>
          simp [hd, h1, h2]

/-- For a non-zero requested season, the code's own-seasons branch (which
drops season 0) agrees with the claim's map (which keeps it). -/
theorem seasonOwn_eq_spec (tv : Rec) {sy : String} (hsy : sy ≠ "")
    {sn : Nat} (hsn : sn ≠ 0) :
    seasonMatchOwn tv sy sn =
      ((seasonMapSpec tv.seasons).any fun p =>
        p.1 = sn &&
          (match p.2.air_date with
           | some d => strTake4 d = sy
           | none => false)) := by
  unfold seasonMatchOwn get_tv_seasons seasonMapSpec
  have hp0 : ∀ q : Nat × SeasonInfo, q.1 ≠ sn →
      (q.1 = sn &&
        (match q.2.air_date with
         | some d => strTake4 d = sy
         | none => false) : Bool) = false := by
    intro q hq
    simp [hq]
  rw [any_congr_mem fun q _ => seasonOwnPred_eq hsy sn q]
  exact seasonFold_any_eq hp0 hsn tv.seasons [] [] rfl

theorem seasonMatchGroups_false_of_none (sy : String) (sn : Nat) :
    ∀ l : List GroupSeason,
      (∀ g ∈ l, ¬(g.order = some sn ∧ g.episodes ≠ [])) →
      seasonMatchGroups sy sn l = false := by
  intro l
  induction l with
  | nil => intro _; rfl
  | cons g rest ih =>
      intro h
      unfold seasonMatchGroups
      by_cases ho : g.order = some sn
      · rw [if_neg (by simpa using ho)]
        have hep : g.episodes = [] := by
          by_contra hne
          exact h g (by simp) ⟨ho, hne⟩
        rw [hep]
        exact ih fun g' hg' => h g' (by simp [hg'])
      · rw [if_pos (by simpa using ho)]
        exact ih fun g' hg' => h g' (by simp [hg'])

/-- With at most one group carrying the requested order (and a non-empty
episode list), the code's scan — including its abort when the first episode
has no air date — coincides with the claim's existence test. -/
theorem seasonMatchGroups_eq_any (sy : String) (sn : Nat) :
    ∀ l : List GroupSeason,
      l.countP (fun g => g.order = some sn && g.episodes ≠ []) ≤ 1 →
      seasonMatchGroups sy sn l = l.any (groupPred sy sn) := by
  intro l
  induction l with
  | nil => intro _; rfl
  | cons g rest ih =>
      intro hg
      have hmono : rest.countP
          (fun g => g.order = some sn && g.episodes ≠ []) ≤
          (g :: rest).countP
            (fun g => g.order = some sn && g.episodes ≠ []) := by
        by_cases hp : (fun g : GroupSeason =>
            (decide (g.order = some sn) && decide (g.episodes ≠ []))) g = true
        · rw [List.countP_cons_of_pos _ rest hp]; omega
        · rw [List.countP_cons_of_neg _ rest (by simpa using hp)]
      rw [List.any_cons]
      by_cases ho : g.order = some sn
      · cases hep : g.episodes with
        | nil =>
            have hscan : seasonMatchGroups sy sn (g :: rest) =
                seasonMatchGroups sy sn rest := by
              conv_lhs => unfold seasonMatchGroups
              rw [if_neg (by simpa using ho), hep]
            have hpg : groupPred sy sn g = false := by
              unfold groupPred
              rw [hep]
              simp
            rw [hscan, hpg, Bool.false_or]
            exact ih (le_trans hmono hg)
        | cons e es =>
            have hptrue : (fun g : GroupSeason =>
                (decide (g.order = some sn) && decide (g.episodes ≠ []))) g
                  = true := by
              simp [ho, hep]
            have hcnt : rest.countP
                (fun g => g.order = some sn && g.episodes ≠ []) = 0 := by
              rw [List.countP_cons_of_pos _ rest hptrue] at hg
              omega
            have hrest_any : rest.any (groupPred sy sn) = false := by
              rw [List.any_eq_false]
              intro g' hg'
              have hng' := List.countP_eq_zero.1 hcnt g' hg'
              by_cases ho' : g'.order = some sn
              · have hep' : g'.episodes = [] := by
                  by_contra hne
                  exact hng' (by simp [ho', hne])
                unfold groupPred
                rw [hep']
                simp
              · unfold groupPred
                simp [ho']
            have hrest_scan : seasonMatchGroups sy sn rest = false := by
              refine seasonMatchGroups_false_of_none sy sn rest ?_
              intro g' hg'
              have hng' := List.countP_eq_zero.1 hcnt g' hg'
              rintro ⟨h1, h2⟩
              exact hng' (by simp [h1, h2])
            have hscan : seasonMatchGroups sy sn (g :: rest) =
                (match e.air_date with
                 | none => false
                 | some d =>
                     if isDateStr d && beforeDash d = sy then true
                     else seasonMatchGroups sy sn rest) := by
              conv_lhs => unfold seasonMatchGroups
              rw [if_neg (by simpa using ho), hep]
            have hpredg : groupPred sy sn g =
                (decide (g.order = some sn) &&
                  (match e.air_date with
                   | none => false
                   | some d => isDateStr d && strTake4 d = sy)) := by
              unfold groupPred
              rw [hep]
            rw [hscan, hpredg, hrest_any, Bool.or_false]
            cases hair : e.air_date with
            | none => simp
            | some d =>
                simp only []
                cases hdate : isDateStr d with
                | true =>
                    rw [beforeDash_eq_take4 hdate]
                    by_cases hy : strTake4 d = sy
                    · simp [ho, hy]
                    · simp [hy, hrest_scan]
                | false =>
                    simp [hrest_scan]
      · have hscan : seasonMatchGroups sy sn (g :: rest) =
            seasonMatchGroups sy sn rest := by
          conv_lhs => unfold seasonMatchGroups
          rw [if_pos (by simpa using ho)]
        have hpg : groupPred sy sn g = false := by
          unfold groupPred
          simp [ho]
        rw [hscan, hpg, Bool.false_or]
        exact ih (le_trans hmono hg)

/-- The combined season requirement: for a truthy season year, a non-zero
season number, and episode groups with at most one entry for the requested
order, `__season_match` computes exactly the claim's condition. -/
theorem season_match_eq_spec (groups : List GroupSeason) (sn : Nat)
    (tv : Rec) (sy : String) (hsy : sy ≠ "") (hsn : sn ≠ 0)
    (hg : groups.countP (fun g => g.order = some sn && g.episodes ≠ []) ≤ 1) :
    season_match groups sn tv sy = seasonCondSpec groups sn tv sy := by
  unfold season_match seasonCondSpec
  by_cases hgs : groups = []
  · simp only [hgs, ne_eq, not_true_eq_false, if_false]
    exact seasonOwn_eq_spec tv hsy hsn
  · rw [if_pos hgs, if_pos hgs]
    exact seasonMatchGroups_eq_any sy sn groups hg

theorem mem_upsertSeason {m : List (Nat × SeasonInfo)} {k : Nat}
    {v : SeasonInfo} {q : Nat × SeasonInfo} (h : q ∈ upsertSeason m k v) :
    q ∈ m ∨ q = (k, v) := by
  unfold upsertSeason at h
  by_cases hc : (m.any fun p => p.1 = k) = true
  · rw [if_pos hc] at h
    rcases List.mem_map.1 h with ⟨p, hp, he⟩
    by_cases hk : p.1 = k
    · right; rw [if_pos hk] at he; exact he.symm
    · left; rw [if_neg hk] at he; exact he ▸ hp
  · rw [if_neg hc] at h
    rcases List.mem_append.1 h with h1 | h1
    · left; exact h1
    · right; simpa using h1

theorem seasonFold_keys_ne_zero :
    ∀ (l : List SeasonInfo) (acc : List (Nat × SeasonInfo)),
      (∀ q ∈ acc, q.1 ≠ 0) →
      ∀ q ∈ l.foldl (seasonStep false) acc, q.1 ≠ 0 := by
  intro l
  induction l with
  | nil => intro acc hacc q hq; exact hacc q hq
  | cons si rest ih =>
      intro acc hacc q hq
      simp only [List.foldl_cons] at hq
      refine ih _ ?_ q hq
      intro p hp
      unfold seasonStep at hp
      cases hs : si.season_number with
      | none => rw [hs] at hp; exact hacc p hp
      | some k =>
          rw [hs] at hp
          simp only [] at hp
          by_cases hk0 : k = 0
          · rw [if_pos (by simp [hk0])] at hp
            exact hacc p hp
          · rw [if_neg (by simp [hk0])] at hp
            rcases mem_upsertSeason hp with h1 | h1
            · exact hacc p h1
            · rw [h1]; exact hk0

/-- C10: the season map derived by `__get_tv_seasons` never contains an
entry for season 0 — the falsy guard drops the specials season exactly as
it drops entries with no season number (closed third conjunct uses the
spec's own sample seasons) — and consequently a season-0 query can never
succeed through a candidate's own `seasons` attribute in `__season_match`. -/
theorem claim_C10 :
    (∀ tv : Rec, ∀ q ∈ get_tv_seasons tv, q.1 ≠ 0) ∧
    (∀ (tv : Rec) (sy : String), season_match [] 0 tv sy = false) ∧
    get_tv_seasons
      { seasons :=
          [{ season_number := some 0, air_date := some "2006-01-08" },
           { season_number := some 1, air_date := some "2005-03-27" }] } =
      [(1, { season_number := some 1, air_date := some "2005-03-27" })] := by
  refine ⟨?_, ?_, by decide⟩
  · intro tv
    exact seasonFold_keys_ne_zero tv.seasons [] (by simp)
  · intro tv sy
    unfold season_match
    rw [if_neg (by simp)]
    unfold seasonMatchOwn
    rw [List.any_eq_false]
    intro q hq
    have hk := seasonFold_keys_ne_zero tv.seasons [] (by simp) q hq
    simp [hk]

/-- C10, witness: the first conjunct applied to the spec's sample seasons,
whose only surviving entry is season 1. -/
theorem claim_C10_witness :
    ((1 : Nat),
      ({ season_number := some 1, air_date := some "2005-03-27" }
        : SeasonInfo)).1 ≠ 0 :=
  claim_C10.1
    { seasons :=
        [{ season_number := some 0, air_date := some "2006-01-08" },
         { season_number := some 1, air_date := some "2005-03-27" }] }
    (1, { season_number := some 1, air_date := some "2005-03-27" })
    (by decide)

/-! ## `TmdbApi.__search_tv_by_season` (claim C2) -/

/-- The year prefix of a possibly-absent date (`d[0:4] if d else None`). -/
def dateYearOpt (o : Option String) : Option String :=
  if strTruthy o then some (strTake4 (o.getD "")) else none

/-- Spec-side single-name comparison: plain normalized equality against a
possibly-absent catalog name. -/
def normEqOpt (name : String) (o : Option String) : Bool :=
  match o with
  | some t => pyNorm t = pyNorm name
  | none => false

theorem cmpOpt_eq_normEqOpt {name : String} (hq : pyNorm name ≠ "")
    (o : Option String) : cmpOpt name o = normEqOpt name o := by
  rw [cmpOpt_spec name hq o]
  cases o <;> rfl

/-- Spec-side alias test: some alias in the `names` list is
normalized-equal to the query. -/
def aliasAny (name : String) (l : List String) : Bool :=
  l.any fun t => pyNorm t = pyNorm name

theorem cmpList_eq_aliasAny {name : String} (hq : pyNorm name ≠ "")
    (l : List String) : cmpList name l = aliasAny name l :=
  cmpList_spec name hq l

/-- The loop body of `__search_tv_by_season`: accept on name/original-name
equality and first-air year equal to the season year; otherwise fetch
detail when the alias list is absent, then require an alias match and the
season match. -/
def acceptSeasonC (env : Env) (name sy : String) (sn : Nat)
    (groups : List GroupSeason) (tv : Rec) : Option Rec :=
  if (cmpOpt name tv.name || cmpOpt name tv.original_name) &&
      dateYearOpt tv.first_air_date = some sy then some tv
  else
    match (if tv.names = [] then env.getInfoF .tv tv.id else .obj tv) with
    | .obj tv2 =>
        if !cmpList name tv2.names then none
        else if season_match groups sn tv2 sy then some tv2 else none
    | _ => none

/-- `TmdbApi.__search_tv_by_season`: search by name only, sort by first-air
date descending (missing dates keyed `0000-00-00`), scan. -/
def search_tv_by_season (env : Env) (name sy : String) (sn : Nat)
    (groups : List GroupSeason) : PyRes :=
  match env.searchTvsF none with
  | .exn => .null
  | .found l =>
      if l = [] then .empty
      else
        scanAccept (acceptSeasonC env name sy sn groups)
          (sortDescBy (fun t => (pyOrDate t.first_air_date).data) l)

/-- C2, spec side, the per-candidate acceptance: name or original-name
normalized equality only together with the first-air year equalling the
season year; otherwise alias matching (fetching detail when the alias list
is absent) plus the claim's season condition. -/
def acceptSeasonS (env : Env) (name sy : String) (sn : Nat)
    (groups : List GroupSeason) (tv : Rec) : Option Rec :=
  if (normEqOpt name tv.name || normEqOpt name tv.original_name) &&
      dateYearOpt tv.first_air_date = some sy then some tv
  else
    match (if tv.names = [] then env.getInfoF .tv tv.id else .obj tv) with
    | .obj tv2 =>
        if aliasAny name tv2.names && seasonCondSpec groups sn tv2 sy then
          some tv2
        else none
    | _ => none

/-- C2, spec side: the first candidate, in first-air-date-descending order,
satisfying the claim's acceptance conditions. -/
def searchTvBySeasonSpec (env : Env) (name sy : String) (sn : Nat)
    (groups : List GroupSeason) : Option Rec :=
  match env.searchTvsF none with
  | .exn => none
  | .found l =>
      (sortDescBy (fun t => (pyOrDate t.first_air_date).data) l).findSome?
        (acceptSeasonS env name sy sn groups)

theorem acceptSeason_eq (env : Env) {name : String} (sy : String) (sn : Nat)
    (groups : List GroupSeason) (hq : pyNorm name ≠ "") (hsy : sy ≠ "")
    (hsn : sn ≠ 0)
    (hg : groups.countP (fun g => g.order = some sn && g.episodes ≠ []) ≤ 1)
    (tv : Rec) :
    acceptSeasonC env name sy sn groups tv =
      acceptSeasonS env name sy sn groups tv := by
  unfold acceptSeasonC acceptSeasonS
  rw [cmpOpt_eq_normEqOpt hq, cmpOpt_eq_normEqOpt hq]
  cases (if tv.names = [] then env.getInfoF .tv tv.id else .obj tv) with
  | obj tv2 =>
      simp only []
      rw [cmpList_eq_aliasAny hq, season_match_eq_spec groups sn tv2 sy hsy hsn hg]
      cases ha : aliasAny name tv2.names with
      | false => simp
      | true =>
          cases hs : seasonCondSpec groups sn tv2 sy with
          | false => simp [hs]
          | true => simp [hs]
  | null => rfl
  | empty => rfl

/-- C2: for a TV query with a truthy season number and season year (and
episode groups carrying at most one entry for the requested order, as the
claim's "the group whose order equals the season number" presumes),
`__search_tv_by_season` accepts exactly per the claim (first conjunct), and
the spec's season-disambiguation example behaves as stated: season 1 of a
show with `seasons = [{season_number: 1, air_date: "2005-03-27"}]` matches
season year 2005 and not 2006 (second and third conjuncts). -/
theorem claim_C2 (env : Env) (name sy : String) (sn : Nat)
    (groups : List GroupSeason) (hq : pyNorm name ≠ "") (hsy : sy ≠ "")
    (hsn : sn ≠ 0)
    (hg : groups.countP (fun g => g.order = some sn && g.episodes ≠ []) ≤ 1) :
    (∀ r : Rec,
        search_tv_by_season env name sy sn groups = .obj r ↔
          searchTvBySeasonSpec env name sy sn groups = some r) ∧
    season_match [] 1
      { seasons :=
          [{ season_number := some 1, air_date := some "2005-03-27" }] }
      "2005" = true ∧
    season_match [] 1
      { seasons :=
          [{ season_number := some 1, air_date := some "2005-03-27" }] }
      "2006" = false := by
  refine ⟨?_, by decide, by decide⟩
  intro r
  unfold search_tv_by_season searchTvBySeasonSpec
  have hacc : acceptSeasonC env name sy sn groups =
      acceptSeasonS env name sy sn groups :=
    funext (acceptSeason_eq env sy sn groups hq hsy hsn hg)
  cases env.searchTvsF none with
  | exn => simp
  | found l =>
      simp only []
      by_cases hl : l = []
      · subst hl
        simp [scanAccept, sortDescBy, stableSort]
      · rw [if_neg hl, hacc]
        exact scanAccept_obj_iff _ _ r

/-- C2, witness: a concrete environment in which the single candidate is
accepted by name with matching first-air year. -/
theorem claim_C2_witness :
    search_tv_by_season
      { searchMoviesF := fun _ => .found [],
        searchTvsF := fun _ => .found
          [{ name := some "Carnivale",
             first_air_date := some "2005-03-27",
             seasons :=
               [{ season_number := some 1,
                  air_date := some "2005-03-27" }] }],
        searchMultiF := .found [],
        getInfoF := fun _ _ => .null }
      "Carnivale" "2005" 1 [] =
      .obj
        { name := some "Carnivale",
          first_air_date := some "2005-03-27",
          seasons :=
            [{ season_number := some 1,
               air_date := some "2005-03-27" }] } ↔
    searchTvBySeasonSpec
      { searchMoviesF := fun _ => .found [],
        searchTvsF := fun _ => .found
          [{ name := some "Carnivale",
             first_air_date := some "2005-03-27",
             seasons :=
               [{ season_number := some 1,
                  air_date := some "2005-03-27" }] }],
        searchMultiF := .found [],
        getInfoF := fun _ _ => .null }
      "Carnivale" "2005" 1 [] =
      some
        { name := some "Carnivale",
          first_air_date := some "2005-03-27",
          seasons :=
            [{ season_number := some 1,
               air_date := some "2005-03-27" }] } :=
  (claim_C2
    { searchMoviesF := fun _ => .found [],
      searchTvsF := fun _ => .found
        [{ name := some "Carnivale",
           first_air_date := some "2005-03-27",
           seasons :=
             [{ season_number := some 1,
                air_date := some "2005-03-27" }] }],
      searchMultiF := .found [],
      getInfoF := fun _ _ => .null }
    "Carnivale" "2005" 1 [] (by decide) (by decide) (by decide)
    (by decide)).1 _

/-! ## `TmdbApi.match` with the year window (claim C1) -/

/-- The loop body of `__search_movie_by_name`: skip on year mismatch
(`if year and movie_year != year: continue`), accept on title or original
title, otherwise fetch detail when the alias list is absent and accept on
an alias match. -/
def acceptMovieC (env : Env) (name : String) (year : Option String)
    (m : Rec) : Option Rec :=
  if strTruthy year && dateYearOpt m.release_date ≠ year then none
  else if cmpOpt name m.title then some m
  else if cmpOpt name m.original_title then some m
  else
    match (if m.names = [] then env.getInfoF .movie m.id else .obj m) with
    | .obj r => if cmpList name r.names then some r else none
    | _ => none

/-- `TmdbApi.__search_movie_by_name`: one year pass — search (server-side
year filter is part of the oracle), sort by release date descending with
missing dates keyed `0000-00-00`, scan. -/
def search_movie_by_name (env : Env) (name : String) (year : Option String) :
    PyRes :=
  match env.searchMoviesF year with
  | .exn => .null
  | .found l =>
      if l = [] then .empty
      else
        scanAccept (acceptMovieC env name year)
          (sortDescBy (fun m => (pyOrDate m.release_date).data) l)

/-- The loop body of `__search_tv_by_name` (the TV name-match fallback),
identical to the movie one with `first_air_date` / `name` /
`original_name`. -/
def acceptTvC (env : Env) (name : String) (year : Option String) (t : Rec) :
    Option Rec :=
  if strTruthy year && dateYearOpt t.first_air_date ≠ year then none
  else if cmpOpt name t.name then some t
  else if cmpOpt name t.original_name then some t
  else
    match (if t.names = [] then env.getInfoF .tv t.id else .obj t) with
    | .obj r => if cmpList name r.names then some r else none
    | _ => none

/-- `TmdbApi.__search_tv_by_name`. -/
def search_tv_by_name (env : Env) (name : String) (year : Option String) :
    PyRes :=
  match env.searchTvsF year with
  | .exn => .null
  | .found l =>
      if l = [] then .empty
      else
        scanAccept (acceptTvC env name year)
          (sortDescBy (fun t => (pyOrDate t.first_air_date).data) l)

/-- `year_range = [year] (+ [str(int(year)+1), str(int(year)-1)] when
truthy)`.  The Python year string is embedded as its numeric value; for the
claims' 4-digit years `str(int(y)±1)` is `natToStr (y ± 1)`. -/
def yearRange : Option Nat → List (Option String)
  | none => [none]
  | some y => [some (natToStr y), some (natToStr (y + 1)),
               some (natToStr (y - 1))]

/-- The `for year in year_range: info = search(...); if info: break` loop:
its value is the first truthy pass result, else the last pass's falsy
value. -/
def passLoop (runPass : Option String → PyRes) :
    List (Option String) → PyRes
  | [] => .empty
  | [p] => runPass p
  | p :: rest =>
      let i := runPass p
      if i.truthy then i else passLoop runPass rest

/-- Python truthiness of an optional integer (`None` and `0` falsy). -/
def natTruthy : Option Nat → Bool
  | none => false
  | some n => n ≠ 0

/-- `TmdbApi.match`: movie path for any non-TV type (year window over
`__search_movie_by_name`, `media_type` set on success); TV path tries the
season-aware search when both season year and season number are truthy and
falls back to the year window over `__search_tv_by_name`. -/
def tmdb_match (env : Env) (name : String) (mtype : MediaTypeE)
    (year : Option Nat) (season_year : Option String)
    (season_number : Option Nat) (group_seasons : List GroupSeason) :
    PyRes :=
  if name = "" then .null
  else if mtype ≠ MediaTypeE.tv then
    setMediaTypeIfTruthy
      (passLoop (search_movie_by_name env name) (yearRange year)) .movie
  else
    let s : PyRes :=
      if strTruthy season_year && natTruthy season_number then
        search_tv_by_season env name (season_year.getD "")
          (season_number.getD 0) group_seasons
      else .empty
    let res :=
      if s.truthy then s
      else passLoop (search_tv_by_name env name) (yearRange year)
    setMediaTypeIfTruthy res .tv

/-- C1, spec side: the year passes in the exact order `[y, y+1, y-1]`. -/
def specYearPasses (y : Nat) : List String :=
  [natToStr y, natToStr (y + 1), natToStr (y - 1)]

/-- C1, spec side, the movie acceptance: skip every candidate whose date
year prefix differs from the pass year; accept the first remaining
candidate whose title or original title is normalized-equal to the query,
or — after a detail fetch when its alias list is absent — whose alias list
contains such an equal name. -/
def acceptMovieS (env : Env) (name ys : String) (m : Rec) : Option Rec :=
  if dateYearOpt m.release_date ≠ some ys then none
  else if normEqOpt name m.title || normEqOpt name m.original_title then
    some m
  else
    match (if m.names = [] then env.getInfoF .movie m.id else .obj m) with
    | .obj r => if aliasAny name r.names then some r else none
    | _ => none

/-- C1, spec side: one movie year pass — candidates sorted by release date
descending (missing dates keyed `0000-00-00`, sorting last), first
acceptance wins; a failed search yields nothing. -/
def moviePassSpec (env : Env) (name ys : String) : Option Rec :=
  match env.searchMoviesF (some ys) with
  | .exn => none
  | .found l =>
      (sortDescBy (fun m => (pyOrDate m.release_date).data) l).findSome?
        (acceptMovieS env name ys)

/-- C1, spec side: the movie match returns at the first year pass yielding
a non-empty result, never comparing across passes, and sets `media_type`. -/
def matchMovieSpec (env : Env) (name : String) (y : Nat) : Option Rec :=
  ((specYearPasses y).findSome? (moviePassSpec env name)).map
    fun r => { r with media_type := some (.mt .movie) }

/-- C1, spec side, the TV name-match acceptance. -/
def acceptTvS (env : Env) (name ys : String) (t : Rec) : Option Rec :=
  if dateYearOpt t.first_air_date ≠ some ys then none
  else if normEqOpt name t.name || normEqOpt name t.original_name then
    some t
  else
    match (if t.names = [] then env.getInfoF .tv t.id else .obj t) with
    | .obj r => if aliasAny name r.names then some r else none
    | _ => none

/-- C1, spec side: one TV year pass. -/
def tvPassSpec (env : Env) (name ys : String) : Option Rec :=
  match env.searchTvsF (some ys) with
  | .exn => none
  | .found l =>
      (sortDescBy (fun t => (pyOrDate t.first_air_date).data) l).findSome?
        (acceptTvS env name ys)

/-- C1, spec side: the TV name-match fallback over the year window. -/
def matchTvSpec (env : Env) (name : String) (y : Nat) : Option Rec :=
  ((specYearPasses y).findSome? (tvPassSpec env name)).map
    fun r => { r with media_type := some (.mt .tv) }

theorem natDigitsAux_ne_nil (fuel n : Nat) :
    natDigitsAux (fuel + 1) n ≠ [] := by
  unfold natDigitsAux
  by_cases h : n < 10
  · simp [h]
  · simp [h]

theorem natToStr_ne_empty (n : Nat) : natToStr n ≠ "" := by
  unfold natToStr
  intro h
  have : natDigitsAux (n + 1) n = [] := by
    have := congrArg String.data h
    simpa using this
  exact natDigitsAux_ne_nil n n this

theorem toOpt_eq_some {p : PyRes} {r : Rec} :
    p.toOpt = some r ↔ p = .obj r := by
  cases p <;> simp [PyRes.toOpt]

theorem setMT_toOpt (p : PyRes) (m : MediaTypeE) :
    (setMediaTypeIfTruthy p m).toOpt =
      p.toOpt.map fun r => { r with media_type := some (.mt m) } := by
  cases p <;> rfl

theorem scanAccept_toOpt (accept : Rec → Option Rec) (l : List Rec) :
    (scanAccept accept l).toOpt = l.findSome? accept := by
  rw [scanAccept_eq]
  cases l.findSome? accept <;> rfl

theorem passLoop_toOpt (runPass : Option String → PyRes) :
    ∀ ps : List (Option String),
      (passLoop runPass ps).toOpt =
        ps.findSome? fun p => (runPass p).toOpt := by
  intro ps
  induction ps with
  | nil => rfl
  | cons p rest ih =>
      rw [List.findSome?_cons]
      cases rest with
      | nil =>
          show (runPass p).toOpt = _
          cases h : (runPass p).toOpt with
          | some r => rfl
          | none => rfl
      | cons q qs =>
          show (if (runPass p).truthy then runPass p
            else passLoop runPass (q :: qs)).toOpt = _
          cases hr : runPass p with
          | obj r => rfl
          | null => simpa [PyRes.truthy, PyRes.toOpt] using ih
          | empty => simpa [PyRes.truthy, PyRes.toOpt] using ih

theorem acceptMovie_eq (env : Env) {name : String} (hq : pyNorm name ≠ "")
    {ys : String} (hys : ys ≠ "") (m : Rec) :
    acceptMovieC env name (some ys) m = acceptMovieS env name ys m := by
  unfold acceptMovieC acceptMovieS
  have h1 : (strTruthy (some ys) &&
      decide (dateYearOpt m.release_date ≠ some ys)) =
      decide (dateYearOpt m.release_date ≠ some ys) := by
    simp [strTruthy, hys]
  rw [h1, cmpOpt_eq_normEqOpt hq, cmpOpt_eq_normEqOpt hq]
  by_cases hskip : dateYearOpt m.release_date ≠ some ys
  · rw [if_pos (by simpa using hskip), if_pos hskip]
  · rw [if_neg (by simpa using hskip), if_neg hskip]
    by_cases ht : normEqOpt name m.title = true
    · simp [ht]
    · simp only [Bool.not_eq_true] at ht
      rw [ht]
      simp only [Bool.false_eq_true, if_false, Bool.false_or]
      by_cases ho : normEqOpt name m.original_title = true
      · simp [ho]
      · simp only [Bool.not_eq_true] at ho
        rw [ho]
        simp only [Bool.false_eq_true, if_false]
        cases hfetch :
            (if m.names = [] then env.getInfoF .movie m.id else .obj m) with
        | obj r =>
            simp only []
            rw [cmpList_eq_aliasAny hq]
        | null => rfl
        | empty => rfl

theorem acceptTv_eq (env : Env) {name : String} (hq : pyNorm name ≠ "")
    {ys : String} (hys : ys ≠ "") (t : Rec) :
    acceptTvC env name (some ys) t = acceptTvS env name ys t := by
  unfold acceptTvC acceptTvS
  have h1 : (strTruthy (some ys) &&
      decide (dateYearOpt t.first_air_date ≠ some ys)) =
      decide (dateYearOpt t.first_air_date ≠ some ys) := by
    simp [strTruthy, hys]
  rw [h1, cmpOpt_eq_normEqOpt hq, cmpOpt_eq_normEqOpt hq]
  by_cases hskip : dateYearOpt t.first_air_date ≠ some ys
  · rw [if_pos (by simpa using hskip), if_pos hskip]
  · rw [if_neg (by simpa using hskip), if_neg hskip]
    by_cases ht : normEqOpt name t.name = true
    · simp [ht]
    · simp only [Bool.not_eq_true] at ht
      rw [ht]
      simp only [Bool.false_eq_true, if_false, Bool.false_or]
      by_cases ho : normEqOpt name t.original_name = true
      · simp [ho]
      · simp only [Bool.not_eq_true] at ho
        rw [ho]
        simp only [Bool.false_eq_true, if_false]
        cases hfetch :
            (if t.names = [] then env.getInfoF .tv t.id else .obj t) with
        | obj r =>
            simp only []
            rw [cmpList_eq_aliasAny hq]
        | null => rfl
        | empty => rfl

theorem moviePass_toOpt (env : Env) {name : String} (hq : pyNorm name ≠ "")
    {ys : String} (hys : ys ≠ "") :
    (search_movie_by_name env name (some ys)).toOpt =
      moviePassSpec env name ys := by
  unfold search_movie_by_name moviePassSpec
  cases env.searchMoviesF (some ys) with
  | exn => rfl
  | found l =>
      simp only []
      by_cases hl : l = []
      · subst hl
        simp [PyRes.toOpt, sortDescBy, stableSort]
      · rw [if_neg hl, scanAccept_toOpt,
          show acceptMovieC env name (some ys) = acceptMovieS env name ys
            from funext (acceptMovie_eq env hq hys)]

theorem tvPass_toOpt (env : Env) {name : String} (hq : pyNorm name ≠ "")
    {ys : String} (hys : ys ≠ "") :
    (search_tv_by_name env name (some ys)).toOpt =
      tvPassSpec env name ys := by
  unfold search_tv_by_name tvPassSpec
  cases env.searchTvsF (some ys) with
  | exn => rfl
  | found l =>
      simp only []
      by_cases hl : l = []
      · subst hl
        simp [PyRes.toOpt, sortDescBy, stableSort]
      · rw [if_neg hl, scanAccept_toOpt,
          show acceptTvC env name (some ys) = acceptTvS env name ys
            from funext (acceptTv_eq env hq hys)]

/-- C1: for a non-empty (after normalization) query and a 4-digit year,
`match` runs the year passes in the exact order `[y, y+1, y-1]`, returning
at the first pass with a non-empty result, each pass sorting by
release/first-air date descending (missing dates keyed `0000-00-00`),
skipping year-prefix mismatches and accepting the first
title/original-title normalized match or (after a detail fetch when the
alias list is absent) alias match — on the movie path and the TV
name-match fallback alike (first two conjuncts).  Third conjunct: the
spec's tie-break example — two candidates with the same normalized title,
dates 2019-01-01 and 2020-01-01 and no year constraint — returns the 2020
one. -/
theorem claim_C1 (env : Env) (name : String) (y : Nat)
    (hq : pyNorm name ≠ "") (hy : 1000 ≤ y) :
    (∀ r : Rec,
        tmdb_match env name .movie (some y) none none [] = .obj r ↔
          matchMovieSpec env name y = some r) ∧
    (∀ r : Rec,
        tmdb_match env name .tv (some y) none none [] = .obj r ↔
          matchTvSpec env name y = some r) ∧
    tmdb_match
      { searchMoviesF := fun _ => .found
          [{ title := some "AAA", release_date := some "2019-01-01" },
           { title := some "AAA", release_date := some "2020-01-01" }],
        searchTvsF := fun _ => .found [],
        searchMultiF := .found [],
        getInfoF := fun _ _ => .null }
      "AAA" .movie none none none [] =
      .obj { title := some "AAA", release_date := some "2020-01-01",
             media_type := some (.mt .movie) } := by
  have hname : name ≠ "" := ne_empty_of_pyNorm_ne name hq
  have hpassM :
      (yearRange (some y)).findSome?
        (fun p => (search_movie_by_name env name p).toOpt) =
      (specYearPasses y).findSome? (moviePassSpec env name) := by
    unfold yearRange specYearPasses
    simp only [List.findSome?_cons, List.findSome?_nil]
    rw [moviePass_toOpt env hq (natToStr_ne_empty y),
      moviePass_toOpt env hq (natToStr_ne_empty (y + 1)),
      moviePass_toOpt env hq (natToStr_ne_empty (y - 1))]
  have hpassT :
      (yearRange (some y)).findSome?
        (fun p => (search_tv_by_name env name p).toOpt) =
      (specYearPasses y).findSome? (tvPassSpec env name) := by
    unfold yearRange specYearPasses
    simp only [List.findSome?_cons, List.findSome?_nil]
    rw [tvPass_toOpt env hq (natToStr_ne_empty y),
      tvPass_toOpt env hq (natToStr_ne_empty (y + 1)),
      tvPass_toOpt env hq (natToStr_ne_empty (y - 1))]
  refine ⟨?_, ?_, by decide⟩
  · intro r
    unfold tmdb_match
    rw [if_neg hname,
      if_pos (by decide : MediaTypeE.movie ≠ MediaTypeE.tv)]
    rw [← toOpt_eq_some, setMT_toOpt, passLoop_toOpt, hpassM]
    unfold matchMovieSpec
    exact Iff.rfl
  · intro r
    unfold tmdb_match
    rw [if_neg hname,
      if_neg (by simp : ¬(MediaTypeE.tv ≠ MediaTypeE.tv))]
    show setMediaTypeIfTruthy
        (if (PyRes.empty).truthy then PyRes.empty
         else passLoop (search_tv_by_name env name) (yearRange (some y)))
        .tv = .obj r ↔ _
    rw [show (if (PyRes.empty).truthy then PyRes.empty
         else passLoop (search_tv_by_name env name) (yearRange (some y))) =
        passLoop (search_tv_by_name env name) (yearRange (some y)) from rfl]
    rw [← toOpt_eq_some, setMT_toOpt, passLoop_toOpt, hpassT]
    unfold matchTvSpec
    exact Iff.rfl

/-- C1, witness: the movie conjunct applied in an environment where the
first year pass succeeds. -/
theorem claim_C1_witness :
    tmdb_match
      { searchMoviesF := fun yp =>
          if yp = some "2022" then
            .found [{ title := some "The Batman",
                      release_date := some "2022-03-01" }]
          else .found [],
        searchTvsF := fun _ => .found [],
        searchMultiF := .found [],
        getInfoF := fun _ _ => .null }
      "The Batman" .movie (some 2022) none none [] =
      .obj { title := some "The Batman",
             release_date := some "2022-03-01",
             media_type := some (.mt .movie) } ↔
    matchMovieSpec
      { searchMoviesF := fun yp =>
          if yp = some "2022" then
            .found [{ title := some "The Batman",
                      release_date := some "2022-03-01" }]
          else .found [],
        searchTvsF := fun _ => .found [],
        searchMultiF := .found [],
        getInfoF := fun _ _ => .null }
      "The Batman" 2022 =
      some { title := some "The Batman",
             release_date := some "2022-03-01",
             media_type := some (.mt .movie) } :=
  (claim_C1
    { searchMoviesF := fun yp =>
        if yp = some "2022" then
          .found [{ title := some "The Batman",
                    release_date := some "2022-03-01" }]
        else .found [],
      searchTvsF := fun _ => .found [],
      searchMultiF := .found [],
      getInfoF := fun _ _ => .null }
    "The Batman" 2022 (by decide) (by decide)).1 _

/-! ## Sortedness of the stable descending sort (for claim C3) -/

theorem charsLt_asymm : ∀ {a b : List Char},
    charsLt a b = true → charsLt b a = false := by
  intro a
  induction a with
  | nil =>
      intro b h
      cases b with
      | nil => simp [charsLt] at h
      | cons c cs => rfl
  | cons c cs ih =>
      intro b h
      cases b with
      | nil => simp [charsLt] at h
      | cons d ds =>
          unfold charsLt at h ⊢
          by_cases hcd : c.toNat < d.toNat
          · rw [if_neg (show ¬d.toNat < c.toNat by omega), if_pos hcd]
          · rw [if_neg hcd] at h
            by_cases hdc : d.toNat < c.toNat
            · rw [if_pos hdc] at h
              simp at h
            · rw [if_neg hdc] at h
              rw [if_neg hdc, if_neg hcd]
              exact ih h

theorem charsLt_conn : ∀ {a b : List Char},
    charsLt a b = false → charsLt b a = false → a = b := by
  intro a
  induction a with
  | nil =>
      intro b h1 _
      cases b with
      | nil => rfl
      | cons d ds => simp [charsLt] at h1
  | cons c cs ih =>
      intro b h1 h2
      cases b with
      | nil => simp [charsLt] at h2
      | cons d ds =>
          unfold charsLt at h1 h2
          by_cases hcd : c.toNat < d.toNat
          · rw [if_pos hcd] at h1; simp at h1
          · by_cases hdc : d.toNat < c.toNat
            · rw [if_pos hdc] at h2; simp at h2
            · rw [if_neg hcd, if_neg hdc] at h1
              rw [if_neg hdc, if_neg hcd] at h2
              have hcd2 : c.toNat = d.toNat := by omega
              have hc : c = d := by
                unfold Char.toNat at hcd2
                exact Char.eq_of_val_eq (UInt32.ext hcd2)
              rw [hc, ih h1 h2]

theorem charsLt_trans : ∀ {a b c : List Char},
    charsLt a b = true → charsLt b c = true → charsLt a c = true := by
  intro a
  induction a with
  | nil =>
      intro b c h1 h2
      cases b with
      | nil => simp [charsLt] at h1
      | cons d ds =>
          cases c with
          | nil => simp [charsLt] at h2
          | cons e es => rfl
  | cons x xs ih =>
      intro b c h1 h2
      cases b with
      | nil => simp [charsLt] at h1
      | cons d ds =>
          cases c with
          | nil => simp [charsLt] at h2
          | cons e es =>
              unfold charsLt at h1 h2 ⊢
              by_cases hxd : x.toNat < d.toNat
              · by_cases hde : d.toNat < e.toNat
                · rw [if_pos (by omega)]
                · rw [if_neg hde] at h2
                  by_cases hed : e.toNat < d.toNat
                  · rw [if_pos hed] at h2; simp at h2
                  · rw [if_pos (by omega)]
              · rw [if_neg hxd] at h1
                by_cases hdx : d.toNat < x.toNat
                · rw [if_pos hdx] at h1; simp at h1
                · rw [if_neg hdx] at h1
                  by_cases hde : d.toNat < e.toNat
                  · rw [if_pos (by omega)]
                  · rw [if_neg hde] at h2
                    by_cases hed : e.toNat < d.toNat
                    · rw [if_pos hed] at h2; simp at h2
                    · rw [if_neg hed] at h2
                      rw [if_neg (by omega), if_neg (by omega)]
                      exact ih h1 h2

theorem keyGe_total (ka kb : List Char) :
    keyGe ka kb = true ∨ keyGe kb ka = true := by
  unfold keyGe
  cases h : charsLt ka kb with
  | false => left; rfl
  | true => right; rw [charsLt_asymm h]; rfl

theorem keyGe_trans {ka kb kc : List Char} (h1 : keyGe ka kb = true)
    (h2 : keyGe kb kc = true) : keyGe ka kc = true := by
  unfold keyGe at h1 h2 ⊢
  simp only [Bool.not_eq_true'] at h1 h2 ⊢
  by_contra hne
  have hac : charsLt ka kc = true := by
    cases h : charsLt ka kc
    · exact absurd h hne
    · rfl
  by_cases hba : charsLt kb ka = true
  · have := charsLt_trans hba hac
    rw [this] at h2
    simp at h2
  · have hab : ka = kb := charsLt_conn h1 (by
      cases h : charsLt kb ka
      · rfl
      · exact absurd h hba)
    rw [← hab] at h2
    rw [hac] at h2
    simp at h2

theorem mem_stableInsert {α : Type} (le : α → α → Bool) (x : α) :
    ∀ (s : List α) (y : α), y ∈ stableInsert le x s ↔ y = x ∨ y ∈ s := by
  intro s
  induction s with
  | nil => intro y; simp [stableInsert]
  | cons z zs ih =>
      intro y
      unfold stableInsert
      by_cases h : le x z = true
      · rw [if_pos h]
        simp
      · rw [if_neg h]
        simp [ih y]
        tauto

theorem pairwise_stableInsert {α : Type} (le : α → α → Bool)
    (htot : ∀ a b, le a b = true ∨ le b a = true)
    (htrans : ∀ a b c, le a b = true → le b c = true → le a c = true)
    (x : α) :
    ∀ s : List α, s.Pairwise (fun a b => le a b = true) →
      (stableInsert le x s).Pairwise (fun a b => le a b = true) := by
  intro s
  induction s with
  | nil => intro _; simp [stableInsert]
  | cons z zs ih =>
      intro hp
      rcases List.pairwise_cons.1 hp with ⟨hz, hzs⟩
      unfold stableInsert
      by_cases h : le x z = true
      · rw [if_pos h]
        refine List.pairwise_cons.2 ⟨?_, hp⟩
        intro b hb
        rcases List.mem_cons.1 hb with hb1 | hb1
        · rw [hb1]; exact h
        · exact htrans x z b h (hz b hb1)
      · rw [if_neg h]
        refine List.pairwise_cons.2 ⟨?_, ih hzs⟩
        intro b hb
        rcases (mem_stableInsert le x zs b).1 hb with hb1 | hb1
        · rw [hb1]
          rcases htot x z with h1 | h1
          · exact absurd h1 h
          · exact h1
        · exact hz b hb1

theorem pairwise_stableSort {α : Type} (le : α → α → Bool)
    (htot : ∀ a b, le a b = true ∨ le b a = true)
    (htrans : ∀ a b c, le a b = true → le b c = true → le a c = true) :
    ∀ l : List α, (stableSort le l).Pairwise (fun a b => le a b = true) := by
  intro l
  induction l with
  | nil => simp [stableSort]
  | cons x xs ih =>
      show (stableInsert le x (stableSort le xs)).Pairwise _
      exact pairwise_stableInsert le htot htrans x (stableSort le xs) ih

/-- The sorted output of `sortDescBy` is pairwise key-descending. -/
theorem pairwise_sortDescBy {α : Type} (key : α → List Char) (l : List α) :
    (sortDescBy key l).Pairwise fun a b => keyGe (key a) (key b) = true := by
  unfold sortDescBy
  exact pairwise_stableSort _
    (fun a b => keyGe_total (key a) (key b))
    (fun a b c h1 h2 => keyGe_trans h1 h2) l

/-! ## `TmdbApi.match_multi` (claim C3) -/

/-- The composite sort key of `match_multi`: `"1"` for movies, `"0"` for
everything else, followed by `release_date or first_air_date or
"0000-00-00"`. -/
def multiKeyChars (m : Rec) : List Char :=
  (if m.media_type = some (.str "movie") then '1' else '0') ::
    (pyOrStr m.release_date (pyOrStr m.first_air_date "0000-00-00")).data

/-- The loop body of `match_multi`: movies match on
title/original-title, TV on name/original-name, both with the alias
fallback after a detail fetch when the alias list is absent; any other
media type is skipped. -/
def acceptMultiC (env : Env) (name : String) (m : Rec) : Option Rec :=
  if m.media_type = some (.str "movie") then
    if cmpOpt name m.title || cmpOpt name m.original_title then some m
    else
      match (if m.names = [] then env.getInfoF .movie m.id else .obj m) with
      | .obj r => if cmpList name r.names then some r else none
      | _ => none
  else if m.media_type = some (.str "tv") then
    if cmpOpt name m.name || cmpOpt name m.original_name then some m
    else
      match (if m.names = [] then env.getInfoF .tv m.id else .obj m) with
      | .obj r => if cmpList name r.names then some r else none
      | _ => none
  else none

/-- Is the `media_type` value already the `MediaType` enum
(`isinstance(..., MediaType)`)? -/
def isEnumMT : Option MediaVal → Bool
  | some (.mt _) => true
  | _ => false

/-- The post-loop conversion of `match_multi`: a non-enum `media_type`
becomes `MOVIE` when the raw value is `"movie"` and `TV` otherwise. -/
def fixMediaType (r : Rec) : Rec :=
  if isEnumMT r.media_type then r
  else
    { r with
        media_type :=
          some (.mt (if r.media_type = some (.str "movie") then .movie
            else .tv)) }

/-- `TmdbApi.match_multi`: combined search, sorted descending by the
composite key (movies first), first acceptance wins, and the result's
media type is made an enum. -/
def match_multi (env : Env) (name : String) : PyRes :=
  match env.searchMultiF with
  | .exn => .null
  | .found l =>
      if l = [] then .empty
      else
        match scanAccept (acceptMultiC env name)
            (sortDescBy multiKeyChars l) with
        | .obj r => .obj (fixMediaType r)
        | x => x

/-- C3, spec side, the per-candidate acceptance. -/
def acceptMultiS (env : Env) (name : String) (m : Rec) : Option Rec :=
  if m.media_type = some (.str "movie") then
    if normEqOpt name m.title || normEqOpt name m.original_title then some m
    else
      match (if m.names = [] then env.getInfoF .movie m.id else .obj m) with
      | .obj r => if aliasAny name r.names then some r else none
      | _ => none
  else if m.media_type = some (.str "tv") then
    if normEqOpt name m.name || normEqOpt name m.original_name then some m
    else
      match (if m.names = [] then env.getInfoF .tv m.id else .obj m) with
      | .obj r => if aliasAny name r.names then some r else none
      | _ => none
  else none

/-- C3, spec side: the first candidate in composite-key-descending order
accepted by the claim's rules, with `media_type` made the enum value. -/
def matchMultiSpec (env : Env) (name : String) : Option Rec :=
  match env.searchMultiF with
  | .exn => none
  | .found l =>
      ((sortDescBy multiKeyChars l).findSome? (acceptMultiS env name)).map
        fixMediaType

theorem acceptMulti_eq (env : Env) {name : String} (hq : pyNorm name ≠ "")
    (m : Rec) : acceptMultiC env name m = acceptMultiS env name m := by
  unfold acceptMultiC acceptMultiS
  rw [cmpOpt_eq_normEqOpt hq, cmpOpt_eq_normEqOpt hq,
    cmpOpt_eq_normEqOpt hq, cmpOpt_eq_normEqOpt hq]
  by_cases hmv : m.media_type = some (.str "movie")
  · rw [if_pos hmv, if_pos hmv]
    by_cases ht : (normEqOpt name m.title || normEqOpt name m.original_title)
        = true
    · simp [ht]
    · simp only [Bool.not_eq_true] at ht
      rw [ht]
      simp only [Bool.false_eq_true, if_false]
      cases hfetch :
          (if m.names = [] then env.getInfoF .movie m.id else .obj m) with
      | obj r =>
          simp only []
          rw [cmpList_eq_aliasAny hq]
      | null => rfl
      | empty => rfl
  · rw [if_neg hmv, if_neg hmv]
    by_cases htv : m.media_type = some (.str "tv")
    · rw [if_pos htv, if_pos htv]
      by_cases ht : (normEqOpt name m.name || normEqOpt name m.original_name)
          = true
      · simp [ht]
      · simp only [Bool.not_eq_true] at ht
        rw [ht]
        simp only [Bool.false_eq_true, if_false]
        cases hfetch :
            (if m.names = [] then env.getInfoF .tv m.id else .obj m) with
        | obj r =>
            simp only []
            rw [cmpList_eq_aliasAny hq]
        | null => rfl
        | empty => rfl
    · rw [if_neg htv, if_neg htv]

theorem isEnumMT_fixMediaType (r : Rec) :
    isEnumMT (fixMediaType r).media_type = true := by
  unfold fixMediaType
  by_cases h : isEnumMT r.media_type = true
  · rw [if_pos h]; exact h
  · rw [if_neg h]; rfl

/-- A movie key starts `'1'`, every other key starts `'0'`, and `'0'… <
'1'…` always, so in the sorted order no non-movie precedes a movie. -/
theorem charsLt_zero_one (s t : List Char) :
    charsLt ('0' :: s) ('1' :: t) = true := by
  unfold charsLt
  rw [if_pos (by decide : ('0' : Char).toNat < ('1' : Char).toNat)]

/-- C3: `match_multi` returns exactly the claim's first accepted candidate
in composite-key order (first conjunct); in that order every movie
candidate precedes every non-movie candidate regardless of dates (second
conjunct); a returned record always carries the enum `media_type` (third
conjunct). -/
theorem claim_C3 (env : Env) (name : String) (hq : pyNorm name ≠ "") :
    (∀ r : Rec,
        match_multi env name = .obj r ↔ matchMultiSpec env name = some r) ∧
    (∀ l : List Rec,
        (sortDescBy multiKeyChars l).Pairwise fun a b =>
          b.media_type = some (.str "movie") →
            a.media_type = some (.str "movie")) ∧
    (∀ r : Rec, match_multi env name = .obj r →
        isEnumMT r.media_type = true) ∧
    match_multi
      { searchMoviesF := fun _ => .found [],
        searchTvsF := fun _ => .found [],
        searchMultiF := .found
          [{ media_type := some (.str "tv"), name := some "Matrix",
             first_air_date := some "2003-05-01" },
           { media_type := some (.str "movie"), title := some "Matrix",
             release_date := some "2003-05-01" }],
        getInfoF := fun _ _ => .null }
      "Matrix" =
      .obj { media_type := some (.mt .movie), title := some "Matrix",
             release_date := some "2003-05-01" } := by
  have hacc : acceptMultiC env name = acceptMultiS env name :=
    funext (acceptMulti_eq env hq)
  have hiff : ∀ r : Rec,
      match_multi env name = .obj r ↔ matchMultiSpec env name = some r := by
    intro r
    unfold match_multi matchMultiSpec
    cases env.searchMultiF with
    | exn => simp
    | found l =>
        simp only []
        by_cases hl : l = []
        · subst hl
          simp [scanAccept, sortDescBy, stableSort]
        · rw [if_neg hl, hacc, scanAccept_eq]
          cases hf : (sortDescBy multiKeyChars l).findSome?
              (acceptMultiS env name) with
          | some a => simp
          | none => simp
  refine ⟨hiff, ?_, ?_, by decide⟩
  · intro l
    refine (pairwise_sortDescBy multiKeyChars l).imp ?_
    intro a b hge hbm
    by_contra ham
    have hka : multiKeyChars a = '0' ::
        (pyOrStr a.release_date
          (pyOrStr a.first_air_date "0000-00-00")).data := by
      unfold multiKeyChars
      rw [if_neg ham]
    have hkb : multiKeyChars b = '1' ::
        (pyOrStr b.release_date
          (pyOrStr b.first_air_date "0000-00-00")).data := by
      unfold multiKeyChars
      rw [if_pos hbm]
    rw [hka, hkb] at hge
    unfold keyGe at hge
    rw [charsLt_zero_one] at hge
    simp at hge
  · intro r hr
    have := (hiff r).1 hr
    unfold matchMultiSpec at this
    cases henv : env.searchMultiF with
    | exn => rw [henv] at this; simp at this
    | found l =>
        rw [henv] at this
        simp only [] at this
        rcases Option.map_eq_some'.1 this with ⟨a, _, ha2⟩
        rw [← ha2]
        exact isEnumMT_fixMediaType a

/-- C3, witness: the first conjunct applied in the concrete movie-and-TV
environment of the spec's `Matrix` example. -/
theorem claim_C3_witness :
    match_multi
      { searchMoviesF := fun _ => .found [],
        searchTvsF := fun _ => .found [],
        searchMultiF := .found
          [{ media_type := some (.str "tv"), name := some "Matrix",
             first_air_date := some "2003-05-01" },
           { media_type := some (.str "movie"), title := some "Matrix",
             release_date := some "2003-05-01" }],
        getInfoF := fun _ _ => .null }
      "Matrix" =
      .obj { media_type := some (.mt .movie), title := some "Matrix",
             release_date := some "2003-05-01" } ↔
    matchMultiSpec
      { searchMoviesF := fun _ => .found [],
        searchTvsF := fun _ => .found [],
        searchMultiF := .found
          [{ media_type := some (.str "tv"), name := some "Matrix",
             first_air_date := some "2003-05-01" },
           { media_type := some (.str "movie"), title := some "Matrix",
             release_date := some "2003-05-01" }],
        getInfoF := fun _ _ => .null }
      "Matrix" =
      some { media_type := some (.mt .movie), title := some "Matrix",
             release_date := some "2003-05-01" } :=
  (claim_C3
    { searchMoviesF := fun _ => .found [],
      searchTvsF := fun _ => .found [],
      searchMultiF := .found
        [{ media_type := some (.str "tv"), name := some "Matrix",
           first_air_date := some "2003-05-01" },
         { media_type := some (.str "movie"), title := some "Matrix",
           release_date := some "2003-05-01" }],
      getInfoF := fun _ _ => .null }
    "Matrix" (by decide)).1 _

/-! ## `TmdbApi.match_web` (claim C7) -/

/-- Outcome of fetching the public search page: no response, HTTP 429
(rate limited), another non-200 status, an empty body, or a parsed body.
The HTML/xpath extraction is a collaborator, so a body is given directly as
the two link lists the two xpath queries would produce (the TV-restricted
`data-media-type='tv'` one and the unrestricted one). -/
inductive WebPage where
  | noResponse
  | http429
  | httpOther
  | emptyBody
  | body (linksTv : List String) (linksAll : List String)

/-- Result of `match_web`: either the raised `APIRateLimitException` or a
returned value. -/
inductive WebRes where
  | raised
  | ret (r : PyRes)
  deriving DecidableEq

/-- The link filter of `match_web`'s loop: truthy and starting with `/tv`
or `/movie`. -/
def goodLink (l : String) : Bool :=
  l ≠ "" && (strStartsWith l "/tv" || strStartsWith l "/movie")

/-- One step of the dedup append (`if link not in tmdb_links: append`). -/
def dedupStep (acc : List String) (l : String) : List String :=
  if acc.contains l then acc else acc ++ [l]

/-- The `tmdb_links` loop of `match_web`: skip bad links, dedup-append the
rest. -/
def collectLinks (links : List String) : List String :=
  links.foldl (fun acc l => if !goodLink l then acc else dedupStep acc l) []

/-- C7, spec side: deduplicate preserving first occurrence. -/
def pyDedup (links : List String) : List String :=
  links.foldl dedupStep []

/-- `TmdbApi.match_web(name, mtype)`: empty names return `None`, CJK names
return `{}` before any fetch; then the page fetch outcome is dispatched,
and a single remaining candidate link is resolved through `get_info`
(passing the last path segment as the id), rejected when the caller wanted
TV but the record is not.  The second component records whether the page
fetch was attempted. -/
def match_web (giW : MediaTypeE → String → PyRes) (fetch : WebPage)
    (name : String) (mtype : MediaTypeE) : WebRes × Bool :=
  if name = "" then (.ret .null, false)
  else if isChineseStr name then (.ret .empty, false)
  else
    match fetch with
    | .noResponse => (.ret .null, true)
    | .http429 => (.raised, true)
    | .httpOther => (.ret .empty, true)
    | .emptyBody => (.ret .empty, true)
    | .body ltv lall =>
        match collectLinks (if mtype = .tv then ltv else lall) with
        | [lnk] =>
            match giW (if strStartsWith lnk "/tv" then .tv else .movie)
                (lastSlashSeg lnk) with
            | .obj r =>
                if mtype = .tv && r.media_type ≠ some (.mt .tv) then
                  (.ret .empty, true)
                else (.ret (.obj r), true)
            | x => (.ret x, true)
        | _ => (.ret .empty, true)

/-- C7, spec side: a CJK query yields an empty result without fetching; a
non-CJK query fetches, keeps only links prefixed `/tv` or `/movie`,
deduplicates, and resolves exactly one remaining link through the detail
lookup — rejecting a movie when TV was requested — while zero or several
links yield an empty result.  The non-200/empty-body branches are not part
of the claim and mirror the code. -/
def matchWebSpec (giW : MediaTypeE → String → PyRes) (fetch : WebPage)
    (name : String) (mtype : MediaTypeE) : WebRes × Bool :=
  if name = "" then (.ret .null, false)
  else if isChineseStr name then (.ret .empty, false)
  else
    match fetch with
    | .noResponse => (.ret .null, true)
    | .http429 => (.raised, true)
    | .httpOther => (.ret .empty, true)
    | .emptyBody => (.ret .empty, true)
    | .body ltv lall =>
        match pyDedup ((if mtype = .tv then ltv else lall).filter goodLink)
            with
        | [lnk] =>
            match giW (if strStartsWith lnk "/tv" then .tv else .movie)
                (lastSlashSeg lnk) with
            | .obj r =>
                if mtype = .tv && r.media_type = some (.mt .movie) then
                  (.ret .empty, true)
                else (.ret (.obj r), true)
            | x => (.ret x, true)
        | _ => (.ret .empty, true)

theorem collectLinks_eq_aux :
    ∀ (links : List String) (acc : List String),
      links.foldl (fun acc l => if !goodLink l then acc else dedupStep acc l)
          acc =
        (links.filter goodLink).foldl dedupStep acc := by
  intro links
  induction links with
  | nil => intro acc; rfl
  | cons l rest ih =>
      intro acc
      rw [List.foldl_cons, List.filter_cons]
      cases hg : goodLink l with
      | true =>
          rw [if_neg (by simp)]
          have hf : (if (true : Bool) = true then l :: rest.filter goodLink
              else rest.filter goodLink) = l :: rest.filter goodLink := by
            simp
          rw [hf, List.foldl_cons]
          exact ih (dedupStep acc l)
      | false =>
          rw [if_pos (by simp)]
          have hf : (if (false : Bool) = true then l :: rest.filter goodLink
              else rest.filter goodLink) = rest.filter goodLink := by
            simp
          rw [hf]
          exact ih acc

/-- The single collecting loop equals filter-then-dedup. -/
theorem collectLinks_eq (links : List String) :
    collectLinks links = pyDedup (links.filter goodLink) :=
  collectLinks_eq_aux links []

/-- C7: `match_web` behaves exactly per the claim — for every fetch
outcome, every query and every well-typed detail oracle (`get_info` only
returns records typed movie or TV) the code equals the spec side; a CJK
query returns empty without the fetch for every fetch outcome; two links
give an empty result (closed third conjunct). -/
theorem claim_C7 (giW : MediaTypeE → String → PyRes) (fetch : WebPage)
    (name : String) (mtype : MediaTypeE)
    (hgi : ∀ (mt : MediaTypeE) (s : String) (r : Rec),
      giW mt s = .obj r →
        r.media_type = some (.mt .movie) ∨ r.media_type = some (.mt .tv)) :
    match_web giW fetch name mtype = matchWebSpec giW fetch name mtype ∧
    (isChineseStr name = true →
      ∀ f : WebPage, match_web giW f name mtype = (.ret .empty, false)) ∧
    match_web giW (.body [] ["/movie/1", "/movie/2"]) "Heat" .movie =
      (.ret .empty, true) := by
  refine ⟨?_, ?_, by rfl⟩
  · unfold match_web matchWebSpec
    by_cases hn : name = ""
    · simp [hn]
    · rw [if_neg hn, if_neg hn]
      by_cases hc : isChineseStr name = true
      · rw [if_pos hc, if_pos hc]
      · rw [if_neg hc, if_neg hc]
        cases fetch with
        | noResponse => rfl
        | http429 => rfl
        | httpOther => rfl
        | emptyBody => rfl
        | body ltv lall =>
            simp only []
            rw [collectLinks_eq]
            cases hd : pyDedup
                ((if mtype = .tv then ltv else lall).filter goodLink) with
            | nil => rfl
            | cons lnk rest =>
                cases rest with
                | cons l2 r2 => rfl
                | nil =>
                    simp only []
                    cases hx : giW
                        (if strStartsWith lnk "/tv" then .tv else .movie)
                        (lastSlashSeg lnk) with
                    | null => rfl
                    | empty => rfl
                    | obj r =>
                        simp only []
                        by_cases hm : mtype = .tv
                        · rcases hgi _ _ r hx with hr | hr
                          · rw [hr]
                            simp [hm]
                          · rw [hr]
                            simp [hm]
                        · simp [hm]
  · intro hcjk f
    have hn : name ≠ "" := by
      intro h
      rw [h] at hcjk
      simp [isChineseStr] at hcjk
    unfold match_web
    rw [if_neg hn, if_pos hcjk]

/-- C7, witness: the code/spec equality applied at a concrete single-link
page with a well-typed detail oracle. -/
theorem claim_C7_witness :
    match_web
      (fun _ _ =>
        .obj { media_type := some (.mt .movie), title := some "Heat" })
      (.body [] ["/movie/949"]) "Heat" .movie =
    matchWebSpec
      (fun _ _ =>
        .obj { media_type := some (.mt .movie), title := some "Heat" })
      (.body [] ["/movie/949"]) "Heat" .movie :=
  (claim_C7
    (fun _ _ =>
      .obj { media_type := some (.mt .movie), title := some "Heat" })
    (.body [] ["/movie/949"]) "Heat" .movie
    (fun mt s r h => by
      simp only [PyRes.obj.injEq] at h
      rw [← h]
      left
      rfl)).1

end MoviePilot
